import Mathlib

/-!
Verification of the epidemic-simulation core of `virus_covid.py`.

The simulation core (class `Virus`: `__init__`/`initial_population`,
`spread_virus`, `assign_symptoms`, `update_status`, `gen`, plus the population
check of `main`) is embedded shallowly:

* Python ints are `ℕ`/`ℤ` (Python integers are unbounded, so no modular
  arithmetic is needed).
* Python floats (`r0`, the percentages, the literals `1.1` and `0.9`) are
  modelled by exact rationals, and Python's `round` (banker's rounding,
  round-half-to-even) by `pyRound` below.
* The process-global `numpy` random generator is modelled by an explicit
  `Oracle`: a pair of functions answering the `np.random.choice` /
  `np.random.randint` calls, indexed by a running call counter (`rng` in the
  state) so that any concrete sequence of draws is realised by some oracle.
  `np.random.choice(src, k, replace=False)` raising `ValueError` when
  `k > len(src)` (or `k < 0`) is modelled by the explicit size check in
  `npChoice`; `np.random.randint(low, high)` raising when `low >= high` is
  modelled in `npRandint`.
* The day-indexed dicts `self.mild`, `self.severe["recovery"]`,
  `self.severe["death"]` (keys `range(fast, 365)`) are modelled as functions
  `ℕ → List ℕ` holding the identities (indices) of the scheduled individuals;
  a lookup of a missing key (`KeyError`) is modelled by the range checks in
  `scheduleOne` / `drainCat`.
* Only the identity of an individual matters to the core; the polar
  coordinates `thetas[i]`, `rs[i]` stored in the buckets are an injective
  function of the identity `i` and are dropped (the bucket stores `i` where
  the source stores `(thetas[i], rs[i])`).
* The per-day outputs (`DayDelta`): the identities newly drawn red / green /
  black by the scatter calls of each frame together with the refreshed
  counters, following §6 of the specification.
-/

namespace VirusSim

set_option maxRecDepth 1000000

/-- Python `round`: round half to even (banker's rounding).  All `round(...)`
calls of the source go through this, with the float products replaced by
exact rational arithmetic. -/
def pyRound (q : ℚ) : ℤ :=
  if q - ⌊q⌋ < 1/2 then ⌊q⌋
  else if 1/2 < q - ⌊q⌋ then ⌊q⌋ + 1
  else if ⌊q⌋ % 2 = 0 then ⌊q⌋ else ⌊q⌋ + 1

/-- `pyRound` of the fraction `a / b` (for `0 < b`), computed directly on the
integer pair so that the simulation can be evaluated by the kernel.  The
fraction need not be in lowest terms; the result only depends on its value
(`pyRoundI_eq_pyRound`). -/
def pyRoundI (a b : ℤ) : ℤ :=
  if 2 * (a % b) < b then a / b
  else if b < 2 * (a % b) then a / b + 1
  else if (a / b) % 2 = 0 then a / b else a / b + 1

/-- The disease-parameter dictionaries of the source (`COVID19_PARAMS`, …). -/
structure Params where
  r0 : ℚ
  incubation : ℕ
  percent_mild : ℚ
  mild_recovery : ℕ × ℕ
  percent_severe : ℚ
  severe_recovery : ℕ × ℕ
  severe_death : ℕ × ℕ
  fatality_rate : ℚ
  serial_interval : ℕ
  deriving DecidableEq

/-- `self.mild_fast = params["incubation"] + params["mild_recovery"][0]`. -/
def Params.mild_fast (p : Params) : ℕ := p.incubation + p.mild_recovery.1

/-- `self.mild_slow = params["incubation"] + params["mild_recovery"][1]`. -/
def Params.mild_slow (p : Params) : ℕ := p.incubation + p.mild_recovery.2

/-- `self.severe_fast = params["incubation"] + params["severe_recovery"][0]`. -/
def Params.severe_fast (p : Params) : ℕ := p.incubation + p.severe_recovery.1

/-- `self.severe_slow = params["incubation"] + params["severe_recovery"][1]`. -/
def Params.severe_slow (p : Params) : ℕ := p.incubation + p.severe_recovery.2

/-- `self.death_fast = params["incubation"] + params["severe_death"][0]`. -/
def Params.death_fast (p : Params) : ℕ := p.incubation + p.severe_death.1

/-- `self.death_slow = params["incubation"] + params["severe_death"][1]`. -/
def Params.death_slow (p : Params) : ℕ := p.incubation + p.severe_death.2

/-- Exact rational value of a decimal float literal of the source, stored in
lowest terms through the raw `Rat` constructor so that the kernel can compute
with it (`ratLit_eq` recovers the `n / d` reading). -/
def ratLit (n : ℤ) (d : ℕ) (den_nz : d ≠ 0 := by decide)
    (red : n.natAbs.Coprime d := by decide) : ℚ := Rat.mk' n d den_nz red

/-- `COVID19_PARAMS` (`2.28 = 57/25`, `0.8 = 4/5`, `0.2 = 1/5`,
`0.034 = 17/500`). -/
def COVID19_PARAMS : Params where
  r0 := ratLit 57 25
  incubation := 5
  percent_mild := ratLit 4 5
  mild_recovery := (7, 14)
  percent_severe := ratLit 1 5
  severe_recovery := (21, 42)
  severe_death := (14, 56)
  fatality_rate := ratLit 17 500
  serial_interval := 7

/-- `COVID19_DELTA_PARAMS` (`5.08 = 127/25`, `0.75 = 3/4`, `0.25 = 1/4`,
`0.014 = 7/500`). -/
def COVID19_DELTA_PARAMS : Params where
  r0 := ratLit 127 25
  incubation := 4
  percent_mild := ratLit 3 4
  mild_recovery := (7, 10)
  percent_severe := ratLit 1 4
  severe_recovery := (21, 42)
  severe_death := (10, 56)
  fatality_rate := ratLit 7 500
  serial_interval := 4

/-- `COVID19_ALPHA_PARAMS` (`4.5 = 9/2`, `0.75 = 3/4`, `0.25 = 1/4`,
`0.018 = 9/500`). -/
def COVID19_ALPHA_PARAMS : Params where
  r0 := ratLit 9 2
  incubation := 5
  percent_mild := ratLit 3 4
  mild_recovery := (7, 14)
  percent_severe := ratLit 1 4
  severe_recovery := (21, 42)
  severe_death := (14, 56)
  fatality_rate := ratLit 9 500
  serial_interval := 6

/-- `COVID19_OMICRON_PARAMS` (`0.85 = 17/20`, `0.15 = 3/20`,
`0.002 = 1/500`). -/
def COVID19_OMICRON_PARAMS : Params where
  r0 := ratLit 10 1
  incubation := 3
  percent_mild := ratLit 17 20
  mild_recovery := (7, 10)
  percent_severe := ratLit 3 20
  severe_recovery := (14, 21)
  severe_death := (10, 28)
  fatality_rate := ratLit 1 500
  serial_interval := 3

/-- `INFLUENZA_PARAMS` (`1.3 = 13/10`, `0.9 = 9/10`, `0.1 = 1/10`,
`0.001 = 1/1000`). -/
def INFLUENZA_PARAMS : Params where
  r0 := ratLit 13 10
  incubation := 2
  percent_mild := ratLit 9 10
  mild_recovery := (3, 7)
  percent_severe := ratLit 1 10
  severe_recovery := (7, 14)
  severe_death := (7, 14)
  fatality_rate := ratLit 1 1000
  serial_interval := 3

/-- `EBOLA_PARAMS` (`1.5 = 3/2`, `percent_mild = 0`, `percent_severe = 1.0`,
`fatality_rate = 0.5 = 1/2`). -/
def EBOLA_PARAMS : Params where
  r0 := ratLit 3 2
  incubation := 12
  percent_mild := ratLit 0 1
  mild_recovery := (0, 0)
  percent_severe := ratLit 1 1
  severe_recovery := (14, 21)
  severe_death := (7, 14)
  fatality_rate := ratLit 1 2
  serial_interval := 15

/-- The preset table `VIRUSES` (values only; the name keys play no role in the
core). -/
def VIRUSES : List Params :=
  [COVID19_PARAMS, COVID19_ALPHA_PARAMS, COVID19_DELTA_PARAMS,
   COVID19_OMICRON_PARAMS, INFLUENZA_PARAMS, EBOLA_PARAMS]

def MIN_POPULATION : ℕ := 500

def MAX_POPULATION : ℕ := 500000

/-- The runtime failures the core can raise.  `invalidPopulationSize` is the
rejection of the population prompt in `main`; `samplingSizeExceeded` is the
`ValueError` of `np.random.choice` (sample larger than the source, or a
negative size); `scheduleOutOfRange` is the `KeyError` of the day-indexed
dicts (keys `range(fast, 365)`); `emptyRandintRange` is the `ValueError` of
`np.random.randint(low, high)` when `low >= high`; `zeroDivision` is
`ZeroDivisionError` (`% 0` or `/ 0.0`). -/
inductive Err where
  | invalidPopulationSize
  | samplingSizeExceeded
  | scheduleOutOfRange
  | emptyRandintRange
  | zeroDivision
  deriving DecidableEq

/-- The global `numpy` random generator, abstracted: `choice tick src k`
answers `np.random.choice(src, k, replace=False)` and `randint tick low high`
answers `np.random.randint(low, high)`, where `tick` is the position of the
call in the global stream of draws (so that distinct calls may receive
distinct answers, as with the real generator). -/
structure Oracle where
  choice : ℕ → List ℕ → ℕ → List ℕ
  randint : ℕ → ℕ → ℕ → ℕ

/-- A well-formed oracle produces what the `numpy` calls would: a
without-replacement sample of the requested size from the source list, and an
integer in `[low, high)`. -/
def Oracle.WF (o : Oracle) : Prop :=
  (∀ tick src k, k ≤ src.length →
      (o.choice tick src k).length = k ∧
      (src.Nodup → (o.choice tick src k).Nodup) ∧
      ∀ x ∈ o.choice tick src k, x ∈ src) ∧
  ∀ tick low high, low < high → low ≤ o.randint tick low high ∧ o.randint tick low high < high

/-- A concrete well-formed oracle (one fixed seed): `choice` takes the first
`k` elements of the source, `randint` returns `low`. -/
def canonicalOracle : Oracle where
  choice := fun _ src k => src.take k
  randint := fun _ low _ => low

/-- The simulation state: the member variables of class `Virus` that the core
reads or writes (the matplotlib figure, texts and coordinate arrays are
rendering-only).  The day-indexed dicts hold lists of identities; `rng` is
the position in the global random stream (the hidden state of `np.random`). -/
structure VState where
  num_population : ℕ
  day : ℕ
  total_num_infected : ℕ
  num_currently_infected : ℤ
  num_recovered : ℕ
  num_deaths : ℕ
  exposed_before : ℕ
  exposed_after : ℕ
  mild : ℕ → List ℕ
  severe_recovery : ℕ → List ℕ
  severe_death : ℕ → List ℕ
  rng : ℕ

/-- The per-day output of a step (§6 of the spec): the identities newly
scattered red (newly exposed), green (newly recovered) and black (newly
dead) by this frame, with the refreshed counters. -/
structure DayDelta where
  day : ℕ
  newlyExposed : List ℕ
  newlyRecovered : List ℕ
  newlyDead : List ℕ
  currentlyInfected : ℤ
  recovered : ℕ
  deaths : ℕ
  totalInfected : ℕ
  deriving DecidableEq

/-- The state after `__init__` + `initial_population`: day 0, one exposed
individual (patient zero, identity `0`), counters at 1, and patient zero
pre-booked in the mild bucket at day `mild_fast`. -/
def initState (numPopulation : ℕ) (p : Params) : VState where
  num_population := numPopulation
  day := 0
  total_num_infected := 1
  num_currently_infected := 1
  num_recovered := 0
  num_deaths := 0
  exposed_before := 0
  exposed_after := 1
  mild := fun d => if d = p.mild_fast then [0] else []
  severe_recovery := fun _ => []
  severe_death := fun _ => []
  rng := 0

/-- Engine construction: the population bound check of `main`
(`numPopulation < MIN_POPULATION or numPopulation > MAX_POPULATION`) followed
by `Virus.__init__`; the out-of-range rejection is the
`InvalidPopulationSize` failure of the specification (§6, §7). -/
def create (p : Params) (numPopulation : ℕ) : Except Err VState :=
  if numPopulation < MIN_POPULATION ∨ MAX_POPULATION < numPopulation then
    .error .invalidPopulationSize
  else .ok (initState numPopulation p)

/-- `Virus.gen` yields while `num_deaths + num_recovered < total_num_infected`;
the simulation is done once that fails. -/
def isDone (s : VState) : Bool := s.total_num_infected ≤ s.num_recovered + s.num_deaths

/-- Append one identity to the day-`t` bucket of `f` (the
`self.mild[day][...] .append(...)` pattern). -/
def updB (f : ℕ → List ℕ) (t : ℕ) (x : ℕ) : ℕ → List ℕ :=
  fun d => if d = t then f d ++ [x] else f d

/-- `np.random.choice(src, k, replace=False)` for an integer `k`: raises
`ValueError` when `k` is negative or exceeds the source size, otherwise asks
the oracle; advances the random stream by one call. -/
def npChoice (o : Oracle) (tick : ℕ) (src : List ℕ) (k : ℤ) : Except Err (List ℕ × ℕ) :=
  if k < 0 then .error .samplingSizeExceeded
  else if (src.length : ℤ) < k then .error .samplingSizeExceeded
  else .ok (o.choice tick src k.toNat, tick + 1)

/-- `np.random.randint(low, high)`: raises `ValueError` when `low >= high`,
otherwise asks the oracle; advances the random stream by one call. -/
def npRandint (o : Oracle) (tick low high : ℕ) : Except Err (ℕ × ℕ) :=
  if high ≤ low then .error .emptyRandintRange
  else .ok (o.randint tick low high, tick + 1)

/-- Insert an identity under bucket day `t`: the dict keys are
`range(fast, 365)`, so any other key is a `KeyError`. -/
def scheduleOne (fast : ℕ) (f : ℕ → List ℕ) (t x : ℕ) : Except Err (ℕ → List ℕ) :=
  if t < fast ∨ 365 ≤ t then .error .scheduleOutOfRange
  else .ok (updB f t x)

/-- One of the three `for` loops at the end of `assign_symptoms`: for each
identity, draw a resolution day in `[low, high)` and append the identity to
that bucket. -/
def scheduleAll (o : Oracle) (fast low high : ℕ) :
    List ℕ → (ℕ → List ℕ) → ℕ → Except Err ((ℕ → List ℕ) × ℕ)
  | [], f, tick => .ok (f, tick)
  | x :: rest, f, tick => do
    let (t, tick1) ← npRandint o tick low high
    let f1 ← scheduleOne fast f t x
    scheduleAll o fast low high rest f1 tick1

/-- The outputs of `assign_symptoms`: the three updated bucket maps, the
advanced random stream, and the three outcome groups of this wave. -/
structure SymptomsOut where
  mildB : ℕ → List ℕ
  sevRB : ℕ → List ℕ
  sevDB : ℕ → List ℕ
  tick : ℕ
  mild_indices : List ℕ
  severe_indices : List ℕ
  death_indices : List ℕ

/-- `Virus.assign_symptoms`.  `percent_severe_recovery * num_severe`
(`= (1 - fatality_rate / percent_severe) * num_severe`) is computed as the
exact fraction with numerator
`(fatality_rate.den * percent_severe.num - fatality_rate.num * percent_severe.den) * num_severe`
and denominator `fatality_rate.den * percent_severe.num`; the
`percent_severe = 0` case is Python's `ZeroDivisionError`. -/
def assign_symptoms (p : Params) (o : Oracle) (day : ℕ) (num_new_infected : ℕ)
    (new_infected_indices : List ℕ) (mildB sevRB sevDB : ℕ → List ℕ) (tick : ℕ) :
    Except Err SymptomsOut := do
  let num_mild : ℤ := pyRoundI (p.percent_mild.num * num_new_infected) p.percent_mild.den
  let num_severe : ℤ := pyRoundI (p.percent_severe.num * num_new_infected) p.percent_severe.den
  let (mild_indices, tick1) ← npChoice o tick new_infected_indices num_mild
  let remaining_indices := new_infected_indices.filter (fun i => !(mild_indices.contains i))
  if p.percent_severe.num = 0 then .error .zeroDivision else do
  let psrNum : ℤ := (p.fatality_rate.den : ℤ) * p.percent_severe.num -
    p.fatality_rate.num * (p.percent_severe.den : ℤ)
  let psrDen : ℤ := (p.fatality_rate.den : ℤ) * p.percent_severe.num
  let num_severe_recovery : ℤ := pyRoundI (psrNum * num_severe) psrDen
  let (severe_indices, tick2) ←
    if remaining_indices.isEmpty then .ok ([], tick1)
    else npChoice o tick1 remaining_indices num_severe_recovery
  let death_indices :=
    if remaining_indices.isEmpty then []
    else remaining_indices.filter (fun i => !(severe_indices.contains i))
  let (mildB1, tick3) ← scheduleAll o p.mild_fast (day + p.mild_fast) (day + p.mild_slow)
    mild_indices mildB tick2
  let (sevRB1, tick4) ← scheduleAll o p.severe_fast (day + p.severe_fast) (day + p.severe_slow)
    severe_indices sevRB tick3
  let (sevDB1, tick5) ← scheduleAll o p.death_fast (day + p.death_fast) (day + p.death_slow)
    death_indices sevDB tick4
  .ok ⟨mildB1, sevRB1, sevDB1, tick5, mild_indices, severe_indices, death_indices⟩

/-- The exposure-wave arithmetic of `spread_virus` (lines 163–167):
`num_new_infected = round(r0 * total)`,
`exposed_after += round(num_new_infected * 1.1)`, and the 90%-clamp when the
pointer would pass the population size.  Returns
`(num_new_infected, exposed_after)`. -/
def waveNums (p : Params) (num_population exposed_before total_num_infected : ℕ) : ℤ × ℤ :=
  let num_new_infected : ℤ := pyRoundI (p.r0.num * total_num_infected) p.r0.den
  let exposed_after : ℤ := (exposed_before : ℤ) + pyRoundI (num_new_infected * 11) 10
  if (num_population : ℤ) < exposed_after then
    (pyRoundI (((num_population : ℤ) - (exposed_before : ℤ)) * 9) 10, (num_population : ℤ))
  else (num_new_infected, exposed_after)

/-- One category of `update_status`: on day `day`, if `day >= fast` read (and
count) the bucket of the day — a `KeyError` if the key is past the dict's
`range(fast, 365)`. -/
def drainCat (fast : ℕ) (f : ℕ → List ℕ) (day : ℕ) : Except Err (List ℕ) :=
  if fast ≤ day then
    if 365 ≤ day then .error .scheduleOutOfRange else .ok (f day)
  else .ok []

/-- The tail of `spread_virus`: `self.day += 1`, then `update_status` (drain
today's three buckets into the counters), then emit the day's delta. -/
def finishDay (p : Params) (s : VState) (total' : ℕ) (current_mid : ℤ) (ea' : ℕ)
    (mildB sevRB sevDB : ℕ → List ℕ) (tick : ℕ) (newlyExposed : List ℕ) (eb : ℕ) :
    Except Err (VState × DayDelta) := do
  let day' := s.day + 1
  let mildD ← drainCat p.mild_fast mildB day'
  let sevRD ← drainCat p.severe_fast sevRB day'
  let sevDD ← drainCat p.death_fast sevDB day'
  let rec' := s.num_recovered + mildD.length + sevRD.length
  let deaths' := s.num_deaths + sevDD.length
  let current' := current_mid - mildD.length - sevRD.length - sevDD.length
  .ok ({ num_population := s.num_population
         day := day'
         total_num_infected := total'
         num_currently_infected := current'
         num_recovered := rec'
         num_deaths := deaths'
         exposed_before := eb
         exposed_after := ea'
         mild := mildB
         severe_recovery := sevRB
         severe_death := sevDB
         rng := tick },
       { day := day'
         newlyExposed := newlyExposed
         newlyRecovered := mildD ++ sevRD
         newlyDead := sevDD
         currentlyInfected := current'
         recovered := rec'
         deaths := deaths'
         totalInfected := total' })

/-- `Virus.spread_virus` (one frame): the exposure wave (on days where
`day % serial_interval == 0` with unexposed individuals left), then
`day += 1` and `update_status`. -/
def spread_virus (p : Params) (o : Oracle) (s : VState) : Except Err (VState × DayDelta) :=
  if p.serial_interval = 0 then .error .zeroDivision
  else
    let exposed_before := s.exposed_after
    if s.day % p.serial_interval = 0 ∧ exposed_before < s.num_population then do
      let nums := waveNums p s.num_population exposed_before s.total_num_infected
      let (new_infected_indices, tick1) ← npChoice o s.rng
        (List.range' exposed_before (nums.2.toNat - exposed_before)) nums.1
      let n := nums.1.toNat
      let sy ← assign_symptoms p o s.day n new_infected_indices
        s.mild s.severe_recovery s.severe_death tick1
      finishDay p s (s.total_num_infected + n) (s.num_currently_infected + n) nums.2.toNat
        sy.mildB sy.sevRB sy.sevDB sy.tick new_infected_indices exposed_before
    else
      finishDay p s s.total_num_infected s.num_currently_infected s.exposed_after
        s.mild s.severe_recovery s.severe_death s.rng [] exposed_before

/-- The driver (`FuncAnimation` with `frames=self.gen`): step while not done,
at most `k` times, collecting the day deltas. -/
def iterG (p : Params) (o : Oracle) : ℕ → VState → Except Err (VState × List DayDelta)
  | 0, s => .ok (s, [])
  | k + 1, s =>
    if isDone s then .ok (s, [])
    else do
      let (s1, δ) ← spread_virus p o s
      let (s2, tr) ← iterG p o k s1
      .ok (s2, δ :: tr)

/-- The states the driver can put the engine in: the freshly constructed
state (for an accepted population size), closed under successful steps from
not-yet-done states. -/
inductive Reachable (p : Params) (o : Oracle) (pop : ℕ) : VState → Prop where
  | init : MIN_POPULATION ≤ pop → pop ≤ MAX_POPULATION → Reachable p o pop (initState pop p)
  | step : ∀ {s s' δ}, Reachable p o pop s → isDone s = false →
      spread_virus p o s = .ok (s', δ) → Reachable p o pop s'

/-- Projection helpers for stating concrete-run facts. -/
def resTotal (r : Except Err (VState × List DayDelta)) : ℕ :=
  match r with
  | .ok x => x.1.total_num_infected
  | .error _ => 0

def resDay (r : Except Err (VState × List DayDelta)) : ℕ :=
  match r with
  | .ok x => x.1.day
  | .error _ => 0

def resDone (r : Except Err (VState × List DayDelta)) : Bool :=
  match r with
  | .ok x => isDone x.1
  | .error _ => false

def resOk (r : Except Err (VState × List DayDelta)) : Bool :=
  match r with
  | .ok _ => true
  | .error _ => false

def resTrace (r : Except Err (VState × List DayDelta)) : List DayDelta :=
  match r with
  | .ok x => x.2
  | .error _ => []

def resState (r : Except Err (VState × List DayDelta)) : VState :=
  match r with
  | .ok x => x.1
  | .error _ => initState 0 COVID19_PARAMS

/-- The empty day delta, used as a default when indexing traces. -/
def emptyDelta : DayDelta where
  day := 0
  newlyExposed := []
  newlyRecovered := []
  newlyDead := []
  currentlyInfected := 0
  recovered := 0
  deaths := 0
  totalInfected := 0

/-- The requested size of the mild draw (`round(percent_mild * num_new)`). -/
def mildReq (p : Params) (n : ℕ) : ℤ := pyRoundI (p.percent_mild.num * n) p.percent_mild.den

/-- `num_severe = round(percent_severe * num_new)`. -/
def severeReq (p : Params) (n : ℕ) : ℤ := pyRoundI (p.percent_severe.num * n) p.percent_severe.den

/-- The requested size of the severe-recovery draw
(`round((1 - fatality_rate/percent_severe) * num_severe)`), as the exact
fraction used in `assign_symptoms`. -/
def severeRecReq (p : Params) (n : ℕ) : ℤ :=
  pyRoundI
    (((p.fatality_rate.den : ℤ) * p.percent_severe.num -
        p.fatality_rate.num * (p.percent_severe.den : ℤ)) * severeReq p n)
    ((p.fatality_rate.den : ℤ) * p.percent_severe.num)

/-- The three schedule maps, indexed (`0` mild, `1` severe-recovery,
`2` severe-death). -/
def bucketOf (s : VState) : Fin 3 → ℕ → List ℕ
  | 0 => s.mild
  | 1 => s.severe_recovery
  | 2 => s.severe_death

/-- The first valid key of each schedule dict. -/
def fastOf (p : Params) : Fin 3 → ℕ
  | 0 => p.mild_fast
  | 1 => p.severe_fast
  | 2 => p.death_fast

/-- The largest day offset any outcome can be scheduled at. -/
def maxSlow (p : Params) : ℕ := max p.mild_slow (max p.severe_slow p.death_slow)

/-- Every scheduled day of a run stays below this bound (waves stop by day
`18 * serial_interval` because the cumulative count at least doubles per
wave and the population is at most `500000 < 2^19`). -/
def horizonT (p : Params) : ℕ := 18 * p.serial_interval + maxSlow p

/-- `⌈day / si⌉`: the number of waves fired strictly before `day` plus the
one at day `0` — used for the doubling argument. -/
def waveCeil (day si : ℕ) : ℕ := (day + si - 1) / si

/-- The number of scheduled-but-not-yet-drained identities (all bucket
entries at days strictly after the current day; entries at earlier days have
been consumed, and `inRange` keeps all entries below day 365). -/
def pendingCount (s : VState) : ℕ :=
  ∑ t ∈ Finset.Ico (s.day + 1) 365,
    ((s.mild t).length + (s.severe_recovery t).length + (s.severe_death t).length)

/-- Sanity of a parameter set.  All six presets satisfy this: `r0 ≥ 1`,
`0 ≤ percent_mild ≤ 1`, at least one day of incubation, a positive serial
interval, ordered recovery/death ranges, and a horizon within the 365-day
bucket space. -/
def Params.Sane (p : Params) : Prop :=
  1 ≤ p.r0 ∧ 0 ≤ p.percent_mild ∧ p.percent_mild ≤ 1 ∧
  1 ≤ p.incubation ∧ 0 < p.serial_interval ∧
  p.mild_recovery.1 ≤ p.mild_recovery.2 ∧
  p.severe_recovery.1 ≤ p.severe_recovery.2 ∧
  p.severe_death.1 ≤ p.severe_death.2 ∧
  horizonT p ≤ 365

/-- The inductive invariant of the engine, for a fixed population size. -/
structure Inv (p : Params) (pop : ℕ) (s : VState) : Prop where
  pop_eq : s.num_population = pop
  pop_max : pop ≤ MAX_POPULATION
  conserve : s.num_currently_infected + s.num_recovered + s.num_deaths =
    (s.total_num_infected : ℤ)
  total_le : s.total_num_infected ≤ s.exposed_after
  ea_le : s.exposed_after ≤ pop
  ea_pos : 1 ≤ s.exposed_after
  entries_lt : ∀ c t x, x ∈ bucketOf s c t → x < s.exposed_after
  sev_pos : ∀ t x, x ∈ s.severe_recovery t ∨ x ∈ s.severe_death t → 1 ≤ x
  zero_mild : 0 ∈ s.mild p.mild_fast
  nodupB : ∀ c t, (bucketOf s c t).Nodup
  disjB : ∀ c t c' t', (c, t) ≠ (c', t') → ∀ x, x ∈ bucketOf s c t → x ∉ bucketOf s c' t'
  inRange : ∀ c t, bucketOf s c t ≠ [] → fastOf p c ≤ t ∧ t < horizonT p
  pending : (pendingCount s : ℤ) = s.num_currently_infected
  growth : s.exposed_after = pop ∨
    2 ^ waveCeil s.day p.serial_interval ≤ s.total_num_infected

/-- The result of one step, with the (never-taken here) error branch mapped
to a stay-put default, so that concrete steps can be named in closed
statements. -/
def stepResult (p : Params) (o : Oracle) (s : VState) : VState × DayDelta :=
  match spread_virus p o s with
  | .ok r => r
  | .error _ => (s, emptyDelta)

/-- The exposure-wave formulas exactly as the specification words them:
`numNewInfected = round(r0 * totalInfected)`, a pointer advance of
`round(numNewInfected * 1.1)`, and on clamping to the population size
`numNewInfected = round(0.9 * (populationSize - exposedBefore))` — over
exact rationals, for comparison with the source-derived `waveNums`. -/
def specWaveNums (p : Params) (num_population exposed_before total_num_infected : ℕ) :
    ℤ × ℤ :=
  let nn : ℤ := pyRound (p.r0 * total_num_infected)
  let ea : ℤ := (exposed_before : ℤ) + pyRound ((nn : ℚ) * 1.1)
  if (num_population : ℤ) < ea then
    (pyRound ((0.9 : ℚ) * ((num_population : ℚ) - (exposed_before : ℚ))),
     (num_population : ℤ))
  else (nn, ea)

/-- The first ten day deltas of an influenza run with population 500
(patient zero is resolved in the fifth delta, dated day 5). -/
def c8Tr : List DayDelta :=
  resTrace (iterG INFLUENZA_PARAMS canonicalOracle 10 (initState 500 INFLUENZA_PARAMS))

/-- The animation loop (`FuncAnimation` over `Virus.gen`) as a relation:
from a state, a complete run either is already over, or performs one
successful step and continues; the trace collects the day deltas. -/
inductive Sim (p : Params) (o : Oracle) : VState → List DayDelta → VState → Prop where
  | done {s : VState} : isDone s = true → Sim p o s [] s
  | step {s s1 s2 : VState} {δ : DayDelta} {tr : List DayDelta} :
      isDone s = false → spread_virus p o s = .ok (s1, δ) → Sim p o s1 tr s2 →
      Sim p o s (δ :: tr) s2

/-- The state of an influenza run with population 500 after four steps. -/
def c10S : VState :=
  resState (iterG INFLUENZA_PARAMS canonicalOracle 4 (initState 500 INFLUENZA_PARAMS))

/-- The fifth step of that run (the step whose delta's day is `mild_fast`). -/
def c10Step : VState × DayDelta := stepResult INFLUENZA_PARAMS canonicalOracle c10S

theorem ediv_le_pyRoundI (a b : ℤ) : a / b ≤ pyRoundI a b := by
  unfold pyRoundI
  split
  · exact le_refl _
  · split
    · exact le_of_lt (lt_add_one _)
    · split
      · exact le_refl _
      · exact le_of_lt (lt_add_one _)

theorem pyRoundI_le_ediv_add_one (a b : ℤ) : pyRoundI a b ≤ a / b + 1 := by
  unfold pyRoundI
  split
  · exact le_of_lt (lt_add_one _)
  · split
    · exact le_refl _
    · split
      · exact le_of_lt (lt_add_one _)
      · exact le_refl _

/-- If `n ≤ a/b` then `n ≤ round(a/b)`. -/
theorem le_pyRoundI {n a b : ℤ} (hb : 0 < b) (h : n * b ≤ a) : n ≤ pyRoundI a b :=
  le_trans ((Int.le_ediv_iff_mul_le hb).mpr h) (ediv_le_pyRoundI a b)

/-- If `a/b ≤ n` then `round(a/b) ≤ n`. -/
theorem pyRoundI_le {n a b : ℤ} (hb : 0 < b) (h : a ≤ n * b) : pyRoundI a b ≤ n := by
  have hmod : a % b + b * (a / b) = a := Int.emod_add_ediv a b
  have hr0 : 0 ≤ a % b := Int.emod_nonneg a (ne_of_gt hb)
  have hqn1 : a / b ≤ n := by
    by_contra hcon
    push_neg at hcon
    have h2 : (n + 1) * b ≤ a := (Int.le_ediv_iff_mul_le hb).mp (by omega)
    nlinarith
  rcases eq_or_lt_of_le hr0 with hr | hr
  · have hbranch : 2 * (a % b) < b := by omega
    unfold pyRoundI
    rw [if_pos hbranch]
    exact hqn1
  · have hlt : b * (a / b) < a := by omega
    have hqn : a / b < n := by
      by_contra hcon
      push_neg at hcon
      have h3 : n * b ≤ (a / b) * b := mul_le_mul_of_nonneg_right hcon (le_of_lt hb)
      nlinarith
    calc pyRoundI a b ≤ a / b + 1 := pyRoundI_le_ediv_add_one a b
      _ ≤ n := by omega

theorem pyRoundI_nonneg {a b : ℤ} (ha : 0 ≤ a) (hb : 0 ≤ b) : 0 ≤ pyRoundI a b :=
  le_trans (Int.ediv_nonneg ha hb) (ediv_le_pyRoundI a b)

/-- `pyRoundI` computes `pyRound` of the value of the fraction. -/
theorem pyRoundI_eq_pyRound (a : ℤ) (b : ℤ) (hb : 0 < b) :
    pyRoundI a b = pyRound ((a : ℚ) / (b : ℚ)) := by
  have hbQ : (0:ℚ) < (b:ℚ) := by exact_mod_cast hb
  have hbne : ((b:ℚ)) ≠ 0 := ne_of_gt hbQ
  have hfloor : ⌊(a : ℚ) / (b : ℚ)⌋ = a / b := by
    have hb' : b = ((b.toNat : ℕ) : ℤ) := by omega
    rw [hb', Int.cast_natCast, Rat.floor_intCast_div_natCast]
  have hfrac : (a : ℚ) / (b : ℚ) - (⌊(a : ℚ) / (b : ℚ)⌋ : ℚ) = ((a % b : ℤ) : ℚ) / (b : ℚ) := by
    rw [hfloor]
    have hmod : a % b + b * (a / b) = a := Int.emod_add_ediv a b
    have h4 : a % b = a - b * (a / b) := by linarith
    rw [h4]
    push_cast
    field_simp
  have hlt : ((a % b : ℤ) : ℚ) / (b : ℚ) < 1/2 ↔ 2 * (a % b) < b := by
    rw [div_lt_iff₀ hbQ]
    constructor
    · intro h
      have h2 : ((2 * (a % b) : ℤ) : ℚ) < ((b : ℤ) : ℚ) := by push_cast; linarith
      exact_mod_cast h2
    · intro h
      have h2 : ((2 * (a % b) : ℤ) : ℚ) < ((b : ℤ) : ℚ) := by exact_mod_cast h
      push_cast at h2
      linarith
  have hgt : (1/2 : ℚ) < ((a % b : ℤ) : ℚ) / (b : ℚ) ↔ b < 2 * (a % b) := by
    rw [lt_div_iff₀ hbQ]
    constructor
    · intro h
      have h2 : ((b : ℤ) : ℚ) < ((2 * (a % b) : ℤ) : ℚ) := by push_cast; linarith
      exact_mod_cast h2
    · intro h
      have h2 : ((b : ℤ) : ℚ) < ((2 * (a % b) : ℤ) : ℚ) := by exact_mod_cast h
      push_cast at h2
      linarith
  unfold pyRound pyRoundI
  rw [hfrac, hfloor]
  by_cases h1 : 2 * (a % b) < b
  · rw [if_pos (hlt.mpr h1), if_pos h1]
  · rw [if_neg (fun hh => h1 (hlt.mp hh)), if_neg h1]
    by_cases h2 : b < 2 * (a % b)
    · rw [if_pos (hgt.mpr h2), if_pos h2]
    · rw [if_neg (fun hh => h2 (hgt.mp hh)), if_neg h2]

theorem ratLit_eq (n : ℤ) (d : ℕ) (h1 : d ≠ 0) (h2 : n.natAbs.Coprime d) :
    ratLit n d h1 h2 = (n : ℚ) / (d : ℚ) := by
  rw [ratLit, Rat.mk'_eq_divInt, Rat.divInt_eq_div]
  norm_cast

/-- The decimal literals of the source agree with the `ratLit` fractions used
above (r0 values). -/
theorem preset_r0_values :
    COVID19_PARAMS.r0 = 2.28 ∧ COVID19_DELTA_PARAMS.r0 = 5.08 ∧
    COVID19_ALPHA_PARAMS.r0 = 4.5 ∧ COVID19_OMICRON_PARAMS.r0 = 10 ∧
    INFLUENZA_PARAMS.r0 = 1.3 ∧ EBOLA_PARAMS.r0 = 1.5 := by
  refine ⟨?_, ?_, ?_, ?_, ?_, ?_⟩ <;>
    simp only [COVID19_PARAMS, COVID19_DELTA_PARAMS, COVID19_ALPHA_PARAMS,
      COVID19_OMICRON_PARAMS, INFLUENZA_PARAMS, EBOLA_PARAMS, ratLit_eq] <;>
    norm_num

/-- The decimal literals of the source agree with the `ratLit` fractions used
above (percentages and fatality rates, for the influenza preset). -/
theorem influenza_percent_values :
    INFLUENZA_PARAMS.percent_mild = 0.9 ∧ INFLUENZA_PARAMS.percent_severe = 0.1 ∧
    INFLUENZA_PARAMS.fatality_rate = 0.001 := by
  refine ⟨?_, ?_, ?_⟩ <;> simp only [INFLUENZA_PARAMS, ratLit_eq] <;> norm_num

theorem canonicalOracle_wf : canonicalOracle.WF := by
  constructor
  · intro tick src k hk
    refine ⟨?_, ?_, ?_⟩
    · simpa [canonicalOracle] using Nat.min_eq_left hk
    · intro hnd
      exact hnd.sublist (List.take_sublist k src)
    · intro x hx
      exact (List.take_sublist k src).subset hx
  · intro tick low high h
    exact ⟨le_refl _, h⟩

theorem except_bind_ok {α β : Type} {a : Except Err α} {f : α → Except Err β} {b : β} :
    (a >>= f) = .ok b ↔ ∃ x, a = .ok x ∧ f x = .ok b := by
  cases a <;> simp [Bind.bind, Except.bind]

theorem npChoice_ok {o tick src k l tick'} :
    npChoice o tick src k = .ok (l, tick') ↔
      0 ≤ k ∧ k ≤ (src.length : ℤ) ∧ l = o.choice tick src k.toNat ∧ tick' = tick + 1 := by
  unfold npChoice
  split
  · rename_i h
    simp only [reduceCtorEq, false_iff]
    rintro ⟨h0, -⟩
    omega
  · split
    · rename_i h1 h2
      simp only [reduceCtorEq, false_iff]
      rintro ⟨-, h3, -⟩
      omega
    · rename_i h1 h2
      simp only [Except.ok.injEq, Prod.mk.injEq]
      constructor
      · rintro ⟨rfl, rfl⟩
        exact ⟨by omega, by omega, rfl, rfl⟩
      · rintro ⟨-, -, rfl, rfl⟩
        exact ⟨rfl, rfl⟩

theorem npRandint_ok {o tick low high v tick'} :
    npRandint o tick low high = .ok (v, tick') ↔
      low < high ∧ v = o.randint tick low high ∧ tick' = tick + 1 := by
  unfold npRandint
  split
  · rename_i h
    simp only [reduceCtorEq, false_iff]
    rintro ⟨h1, -⟩
    omega
  · rename_i h
    simp only [Except.ok.injEq, Prod.mk.injEq]
    constructor
    · rintro ⟨rfl, rfl⟩
      exact ⟨by omega, rfl, rfl⟩
    · rintro ⟨-, rfl, rfl⟩
      exact ⟨rfl, rfl⟩

theorem scheduleOne_ok {fast f t x f'} :
    scheduleOne fast f t x = .ok f' ↔ fast ≤ t ∧ t < 365 ∧ f' = updB f t x := by
  unfold scheduleOne
  split
  · rename_i h
    simp only [reduceCtorEq, false_iff]
    rintro ⟨h1, h2, -⟩
    omega
  · rename_i h
    push_neg at h
    simp only [Except.ok.injEq]
    constructor
    · rintro rfl
      exact ⟨h.1, h.2, rfl⟩
    · rintro ⟨-, -, rfl⟩
      rfl

theorem drainCat_ok {fast f day l} :
    drainCat fast f day = .ok l ↔
      ((fast ≤ day ∧ day < 365 ∧ l = f day) ∨ (day < fast ∧ l = [])) := by
  unfold drainCat
  split
  · rename_i h
    split
    · rename_i h2
      simp only [reduceCtorEq, false_iff]
      rintro (⟨-, h3, -⟩ | ⟨h3, -⟩) <;> omega
    · rename_i h2
      simp only [Except.ok.injEq]
      constructor
      · rintro rfl
        exact Or.inl ⟨h, by omega, rfl⟩
      · rintro (⟨-, -, rfl⟩ | ⟨h3, -⟩)
        · rfl
        · omega
  · rename_i h
    simp only [Except.ok.injEq]
    constructor
    · rintro rfl
      exact Or.inr ⟨by omega, rfl⟩
    · rintro (⟨h3, -, -⟩ | ⟨-, rfl⟩)
      · omega
      · rfl

/-- Success of `finishDay`, unpacked: the three drained lists and the exact
final state and delta. -/
theorem finishDay_ok {p s total' cm ea' mb rb db tick ne eb s' δ} :
    finishDay p s total' cm ea' mb rb db tick ne eb = .ok (s', δ) ↔
      ∃ mildD sevRD sevDD,
        drainCat p.mild_fast mb (s.day + 1) = .ok mildD ∧
        drainCat p.severe_fast rb (s.day + 1) = .ok sevRD ∧
        drainCat p.death_fast db (s.day + 1) = .ok sevDD ∧
        s' = { num_population := s.num_population
               day := s.day + 1
               total_num_infected := total'
               num_currently_infected := cm - mildD.length - sevRD.length - sevDD.length
               num_recovered := s.num_recovered + mildD.length + sevRD.length
               num_deaths := s.num_deaths + sevDD.length
               exposed_before := eb
               exposed_after := ea'
               mild := mb
               severe_recovery := rb
               severe_death := db
               rng := tick } ∧
        δ = { day := s.day + 1
              newlyExposed := ne
              newlyRecovered := mildD ++ sevRD
              newlyDead := sevDD
              currentlyInfected := cm - mildD.length - sevRD.length - sevDD.length
              recovered := s.num_recovered + mildD.length + sevRD.length
              deaths := s.num_deaths + sevDD.length
              totalInfected := total' } := by
  unfold finishDay
  simp only [except_bind_ok]
  constructor
  · rintro ⟨mildD, h1, sevRD, h2, sevDD, h3, hfin⟩
    simp only [Except.ok.injEq, Prod.mk.injEq] at hfin
    exact ⟨mildD, sevRD, sevDD, h1, h2, h3, hfin.1.symm, hfin.2.symm⟩
  · rintro ⟨mildD, sevRD, sevDD, h1, h2, h3, rfl, rfl⟩
    exact ⟨mildD, h1, sevRD, h2, sevDD, h3, rfl⟩

/-- Every bucket after `scheduleAll` is the old bucket with (some of) the
scheduled identities appended; any day that actually receives an identity is
inside the dict's keys, inside `[low, high)` (for a well-formed oracle), and
past `low`. -/
theorem scheduleAll_append {o : Oracle} (ho : o.WF) {fast low high : ℕ} :
    ∀ {idxs : List ℕ} {f : ℕ → List ℕ} {tick : ℕ} {f' : ℕ → List ℕ} {tick' : ℕ},
      scheduleAll o fast low high idxs f tick = .ok (f', tick') →
      ∀ t, ∃ extra, f' t = f t ++ extra ∧ (∀ x ∈ extra, x ∈ idxs) ∧
        (extra ≠ [] → fast ≤ t ∧ t < 365 ∧ low ≤ t ∧ t < high) := by
  intro idxs
  induction idxs with
  | nil =>
    intro f tick f' tick' h t
    simp only [scheduleAll, Except.ok.injEq, Prod.mk.injEq] at h
    exact ⟨[], by simp [h.1], by simp, by simp⟩
  | cons x rest ih =>
    intro f tick f' tick' h t
    simp only [scheduleAll, except_bind_ok] at h
    obtain ⟨⟨v, tick1⟩, hv, h⟩ := h
    obtain ⟨f1, hf1, h⟩ := h
    rw [npRandint_ok] at hv
    rw [scheduleOne_ok] at hf1
    obtain ⟨extra, hext, hmem, hbnd⟩ := ih h t
    obtain ⟨hlh, hveq, -⟩ := hv
    obtain ⟨hfa, h365, rfl⟩ := hf1
    by_cases ht : t = v
    · subst ht
      refine ⟨[x] ++ extra, ?_, ?_, ?_⟩
      · rw [hext]
        simp [updB]
      · intro y hy
        rcases List.mem_append.mp hy with hy | hy
        · simp at hy
          simp [hy]
        · exact List.mem_cons_of_mem _ (hmem y hy)
      · intro _
        have hr := (ho.2 tick low high hlh)
        rw [← hveq] at hr
        exact ⟨hfa, h365, hr.1, hr.2⟩
    · refine ⟨extra, ?_, ?_, ?_⟩
      · rw [hext]
        simp [updB, ht]
      · intro y hy
        exact List.mem_cons_of_mem _ (hmem y hy)
      · exact hbnd

/-- `scheduleAll` preserves: per-bucket `Nodup`, separation between distinct
days, and adds exactly the scheduled identities (provided they are `Nodup`
and fresh for the map). -/
theorem scheduleAll_strong {o : Oracle} {fast low high : ℕ} :
    ∀ {idxs : List ℕ} {f : ℕ → List ℕ} {tick : ℕ} {f' : ℕ → List ℕ} {tick' : ℕ},
      scheduleAll o fast low high idxs f tick = .ok (f', tick') →
      idxs.Nodup → (∀ x ∈ idxs, ∀ t, x ∉ f t) →
      (∀ t, (f t).Nodup) → (∀ t t', t ≠ t' → ∀ x, x ∈ f t → x ∉ f t') →
      (∀ t, (f' t).Nodup) ∧ (∀ t t', t ≠ t' → ∀ x, x ∈ f' t → x ∉ f' t') ∧
        (∀ x t, x ∈ f' t → x ∈ f t ∨ x ∈ idxs) ∧ (∀ x t, x ∈ f t → x ∈ f' t) := by
  intro idxs
  induction idxs with
  | nil =>
    intro f tick f' tick' h _ _ hnd hsep
    simp only [scheduleAll, Except.ok.injEq, Prod.mk.injEq] at h
    rw [← h.1]
    exact ⟨hnd, hsep, fun x t hx => Or.inl hx, fun x t hx => hx⟩
  | cons x rest ih =>
    intro f tick f' tick' h hnodup hfresh hnd hsep
    simp only [scheduleAll, except_bind_ok] at h
    obtain ⟨⟨v, tick1⟩, hv, h⟩ := h
    obtain ⟨f1, hf1, h⟩ := h
    rw [scheduleOne_ok] at hf1
    obtain ⟨-, -, rfl⟩ := hf1
    have hxf : ∀ t, x ∉ f t := hfresh x (List.mem_cons_self x rest)
    have hmem1 : ∀ y t, y ∈ updB f v x t ↔ y ∈ f t ∨ (t = v ∧ y = x) := by
      intro y t
      unfold updB
      by_cases ht : t = v
      · subst ht
        simp
      · simp [ht]
    have hnd1 : ∀ t, (updB f v x t).Nodup := by
      intro t
      unfold updB
      by_cases ht : t = v
      · subst ht
        simp only [if_pos rfl]
        exact List.Nodup.append (hnd t) (List.nodup_singleton x)
          (by
            intro a ha hb
            simp at hb
            subst hb
            exact hxf t ha)
      · simpa [ht] using hnd t
    have hsep1 : ∀ t t', t ≠ t' → ∀ y, y ∈ updB f v x t → y ∉ updB f v x t' := by
      intro t t' htt y hy hy'
      rcases (hmem1 y t).mp hy with hy1 | ⟨ht1, hx1⟩
      · rcases (hmem1 y t').mp hy' with hy2 | ⟨ht2, hx2⟩
        · exact hsep t t' htt y hy1 hy2
        · exact hxf t (hx2 ▸ hy1)
      · rcases (hmem1 y t').mp hy' with hy2 | ⟨ht2, hx2⟩
        · exact hxf t' (hx1 ▸ hy2)
        · exact htt (ht1.trans ht2.symm)
    have hfresh1 : ∀ y ∈ rest, ∀ t, y ∉ updB f v x t := by
      intro y hy t hmem
      rcases (hmem1 y t).mp hmem with hy1 | ⟨-, hyx⟩
      · exact hfresh y (List.mem_cons_of_mem _ hy) t hy1
      · exact (List.nodup_cons.mp hnodup).1 (hyx ▸ hy)
    obtain ⟨a1, a2, a3, a4⟩ := ih h (List.nodup_cons.mp hnodup).2 hfresh1 hnd1 hsep1
    refine ⟨a1, a2, ?_, ?_⟩
    · intro y t hy
      rcases a3 y t hy with hy1 | hy1
      · rcases (hmem1 y t).mp hy1 with hy2 | ⟨-, hyx⟩
        · exact Or.inl hy2
        · exact Or.inr (List.mem_cons.mpr (Or.inl hyx))
      · exact Or.inr (List.mem_cons_of_mem _ hy1)
    · intro y t hy
      exact a4 y t ((hmem1 y t).mpr (Or.inl hy))

/-- Sum of one bucket map's lengths over the window, after `updB`. -/
theorem sum_updB {f : ℕ → List ℕ} {v x : ℕ} {a b : ℕ} (h : v ∈ Finset.Ico a b) :
    ∑ t ∈ Finset.Ico a b, (updB f v x t).length =
      (∑ t ∈ Finset.Ico a b, (f t).length) + 1 := by
  have hpt : ∀ t, (updB f v x t).length = (f t).length + (if t = v then 1 else 0) := by
    intro t
    unfold updB
    by_cases ht : t = v
    · simp [ht]
    · simp [ht]
  calc ∑ t ∈ Finset.Ico a b, (updB f v x t).length
      = ∑ t ∈ Finset.Ico a b, ((f t).length + (if t = v then 1 else 0)) := by
        exact Finset.sum_congr rfl (fun t _ => hpt t)
    _ = (∑ t ∈ Finset.Ico a b, (f t).length) + ∑ t ∈ Finset.Ico a b, (if t = v then 1 else 0) := by
        rw [Finset.sum_add_distrib]
    _ = (∑ t ∈ Finset.Ico a b, (f t).length) + 1 := by
        rw [Finset.sum_ite_eq' (Finset.Ico a b) v (fun _ => 1), if_pos h]

/-- `scheduleAll` adds exactly `idxs.length` entries to the window
`[a, 365)` whenever `a ≤ low` (each scheduled day lies in `[low, 365)`). -/
theorem scheduleAll_sum {o : Oracle} (ho : o.WF) {fast low high a : ℕ} (ha : a ≤ low) :
    ∀ {idxs : List ℕ} {f : ℕ → List ℕ} {tick : ℕ} {f' : ℕ → List ℕ} {tick' : ℕ},
      scheduleAll o fast low high idxs f tick = .ok (f', tick') →
      ∑ t ∈ Finset.Ico a 365, (f' t).length =
        (∑ t ∈ Finset.Ico a 365, (f t).length) + idxs.length := by
  intro idxs
  induction idxs with
  | nil =>
    intro f tick f' tick' h
    simp only [scheduleAll, Except.ok.injEq, Prod.mk.injEq] at h
    simp [h.1]
  | cons x rest ih =>
    intro f tick f' tick' h
    simp only [scheduleAll, except_bind_ok] at h
    obtain ⟨⟨v, tick1⟩, hv, h⟩ := h
    obtain ⟨f1, hf1, h⟩ := h
    rw [npRandint_ok] at hv
    rw [scheduleOne_ok] at hf1
    obtain ⟨hlh, hveq, -⟩ := hv
    obtain ⟨-, h365, rfl⟩ := hf1
    have hvlow : low ≤ v := by
      have hr := (ho.2 tick low high hlh).1
      rw [← hveq] at hr
      exact hr
    have hvmem : v ∈ Finset.Ico a 365 := by
      rw [Finset.mem_Ico]
      omega
    rw [ih h, sum_updB hvmem]
    simp only [List.length_cons]
    omega

/-- Success of `assign_symptoms`, unpacked. -/
theorem assign_symptoms_ok_elim {p : Params} {o : Oracle} {day n : ℕ} {new : List ℕ}
    {mb rb db : ℕ → List ℕ} {tick : ℕ} {sy : SymptomsOut}
    (h : assign_symptoms p o day n new mb rb db tick = .ok sy) :
    ∃ tick1 tick2 mb1 tick3 rb1 tick4,
      npChoice o tick new (mildReq p n) = .ok (sy.mild_indices, tick1) ∧
      p.percent_severe.num ≠ 0 ∧
      (((new.filter (fun i => !(sy.mild_indices.contains i))).isEmpty = true ∧
          sy.severe_indices = [] ∧ tick2 = tick1) ∨
        ((new.filter (fun i => !(sy.mild_indices.contains i))).isEmpty = false ∧
          npChoice o tick1 (new.filter (fun i => !(sy.mild_indices.contains i)))
            (severeRecReq p n) = .ok (sy.severe_indices, tick2))) ∧
      sy.death_indices = (if (new.filter (fun i => !(sy.mild_indices.contains i))).isEmpty then []
        else (new.filter (fun i => !(sy.mild_indices.contains i))).filter
          (fun i => !(sy.severe_indices.contains i))) ∧
      scheduleAll o p.mild_fast (day + p.mild_fast) (day + p.mild_slow)
        sy.mild_indices mb tick2 = .ok (mb1, tick3) ∧
      scheduleAll o p.severe_fast (day + p.severe_fast) (day + p.severe_slow)
        sy.severe_indices rb tick3 = .ok (rb1, tick4) ∧
      scheduleAll o p.death_fast (day + p.death_fast) (day + p.death_slow)
        sy.death_indices db tick4 = .ok (sy.sevDB, sy.tick) ∧
      sy.mildB = mb1 ∧ sy.sevRB = rb1 := by
  unfold assign_symptoms at h
  rw [except_bind_ok] at h
  obtain ⟨⟨mi, t1⟩, h1, h⟩ := h
  dsimp only at h
  split at h
  · exact absurd h (by simp)
  · rename_i hps
    split at h
    · rename_i hem
      rw [except_bind_ok] at h
      obtain ⟨⟨si, t2⟩, h2, h⟩ := h
      dsimp only at h
      simp only [Except.ok.injEq, Prod.mk.injEq] at h2
      rw [except_bind_ok] at h
      obtain ⟨⟨mb1, t3⟩, h3, h⟩ := h
      dsimp only at h
      rw [except_bind_ok] at h
      obtain ⟨⟨rb1, t4⟩, h4, h⟩ := h
      dsimp only at h
      rw [except_bind_ok] at h
      obtain ⟨⟨db1, t5⟩, h5, h⟩ := h
      simp only [Except.ok.injEq] at h
      subst h
      refine ⟨t1, t2, mb1, t3, rb1, t4, h1, hps,
        Or.inl ⟨hem, h2.1.symm, h2.2.symm⟩, ?_, h3, h4, h5, rfl, rfl⟩
      dsimp only
      rw [if_pos hem]
    · rename_i hem
      rw [except_bind_ok] at h
      obtain ⟨⟨si, t2⟩, h2, h⟩ := h
      dsimp only at h
      rw [except_bind_ok] at h
      obtain ⟨⟨mb1, t3⟩, h3, h⟩ := h
      dsimp only at h
      rw [except_bind_ok] at h
      obtain ⟨⟨rb1, t4⟩, h4, h⟩ := h
      dsimp only at h
      rw [except_bind_ok] at h
      obtain ⟨⟨db1, t5⟩, h5, h⟩ := h
      simp only [Except.ok.injEq] at h
      subst h
      refine ⟨t1, t2, mb1, t3, rb1, t4, h1, hps,
        Or.inr ⟨by simpa using hem, h2⟩, ?_, h3, h4, h5, rfl, rfl⟩
      dsimp only
      rw [if_neg hem]

/-- Success of `spread_virus`, split into the non-wave and wave cases. -/
theorem spread_virus_ok_elim {p : Params} {o : Oracle} {s s' : VState} {δ : DayDelta}
    (h : spread_virus p o s = .ok (s', δ)) :
    p.serial_interval ≠ 0 ∧
    ((¬(s.day % p.serial_interval = 0 ∧ s.exposed_after < s.num_population) ∧
        finishDay p s s.total_num_infected s.num_currently_infected s.exposed_after
          s.mild s.severe_recovery s.severe_death s.rng [] s.exposed_after = .ok (s', δ)) ∨
      (s.day % p.serial_interval = 0 ∧ s.exposed_after < s.num_population ∧
        ∃ lst tick1 sy,
          npChoice o s.rng
            (List.range' s.exposed_after
              ((waveNums p s.num_population s.exposed_after s.total_num_infected).2.toNat -
                s.exposed_after))
            (waveNums p s.num_population s.exposed_after s.total_num_infected).1 =
            .ok (lst, tick1) ∧
          assign_symptoms p o s.day
            (waveNums p s.num_population s.exposed_after s.total_num_infected).1.toNat
            lst s.mild s.severe_recovery s.severe_death tick1 = .ok sy ∧
          finishDay p s
            (s.total_num_infected +
              (waveNums p s.num_population s.exposed_after s.total_num_infected).1.toNat)
            (s.num_currently_infected +
              (waveNums p s.num_population s.exposed_after s.total_num_infected).1.toNat)
            (waveNums p s.num_population s.exposed_after s.total_num_infected).2.toNat
            sy.mildB sy.sevRB sy.sevDB sy.tick lst s.exposed_after = .ok (s', δ))) := by
  unfold spread_virus at h
  split at h
  · exact absurd h (by simp)
  · rename_i hσ
    dsimp only at h
    split at h
    · rename_i hcond
      refine ⟨hσ, Or.inr ⟨hcond.1, hcond.2, ?_⟩⟩
      rw [except_bind_ok] at h
      obtain ⟨⟨lst, tick1⟩, h1, h⟩ := h
      dsimp only at h
      rw [except_bind_ok] at h
      obtain ⟨sy, h2, h3⟩ := h
      exact ⟨lst, tick1, sy, h1, h2, h3⟩
    · rename_i hcond
      exact ⟨hσ, Or.inl ⟨hcond, h⟩⟩

theorem VIRUSES_sane : ∀ q ∈ VIRUSES, q.Sane := by
  intro q hq
  simp only [VIRUSES, List.mem_cons, List.not_mem_nil, or_false] at hq
  rcases hq with rfl | rfl | rfl | rfl | rfl | rfl <;>
    exact ⟨by decide, by decide, by decide, by decide, by decide, by decide, by decide,
      by decide, by decide⟩

theorem den_le_num_of_one_le {q : ℚ} (h : 1 ≤ q) : (q.den : ℤ) ≤ q.num := by
  have h2 := Rat.le_def.mp h
  simpa using h2

theorem num_le_den_of_le_one {q : ℚ} (h : q ≤ 1) : q.num ≤ (q.den : ℤ) := by
  have h2 := Rat.le_def.mp h
  simpa using h2

theorem mem_filter_ncontains {l sub : List ℕ} {x : ℕ} :
    x ∈ l.filter (fun i => !(sub.contains i)) ↔ x ∈ l ∧ x ∉ sub := by
  simp [List.mem_filter]

/-- For `Nodup` lists with `sub ⊆ l`, removing `sub` removes exactly
`sub.length` elements. -/
theorem length_filter_ncontains {l sub : List ℕ} (hl : l.Nodup) (hsub : sub.Nodup)
    (hss : ∀ x ∈ sub, x ∈ l) :
    (l.filter (fun i => !(sub.contains i))).length = l.length - sub.length := by
  have h1 : (l.filter (fun i => sub.contains i)).length = sub.length := by
    have hnd1 : (l.filter (fun i => sub.contains i)).Nodup := hl.filter _
    have hset : (l.filter (fun i => sub.contains i)).toFinset = sub.toFinset := by
      ext a
      simp only [List.mem_toFinset, List.mem_filter]
      constructor
      · rintro ⟨-, hc⟩
        exact List.elem_iff.mp hc
      · intro hs
        exact ⟨hss a hs, List.elem_iff.mpr hs⟩
    calc (l.filter (fun i => sub.contains i)).length
        = (l.filter (fun i => sub.contains i)).toFinset.card :=
          (List.toFinset_card_of_nodup hnd1).symm
      _ = sub.toFinset.card := by rw [hset]
      _ = sub.length := List.toFinset_card_of_nodup hsub
  have h2 := List.length_eq_length_filter_add (l := l) (fun i => sub.contains i)
  omega

theorem waveCeil_dvd {d si : ℕ} (hsi : 0 < si) (h : d % si = 0) :
    waveCeil d si = d / si ∧ waveCeil (d + 1) si = d / si + 1 := by
  have hd : si * (d / si) + d % si = d := Nat.div_add_mod d si
  rw [h, Nat.add_zero] at hd
  constructor
  · have e1 : d + si - 1 = si * (d / si) + (si - 1) := by omega
    have e2 : (si - 1) / si = 0 := Nat.div_eq_of_lt (by omega)
    rw [waveCeil, e1, Nat.mul_add_div hsi]
    omega
  · have e1 : d + 1 + si - 1 = si * (d / si) + si := by omega
    rw [waveCeil, e1, Nat.mul_add_div hsi, Nat.div_self hsi]

theorem waveCeil_ndvd {d si : ℕ} (hsi : 0 < si) (h : d % si ≠ 0) :
    waveCeil (d + 1) si = waveCeil d si := by
  have hd : si * (d / si) + d % si = d := Nat.div_add_mod d si
  have hrlt : d % si < si := Nat.mod_lt d hsi
  have e1 : d + si - 1 = si * (d / si + 1) + (d % si - 1) := by
    have e0 : si * (d / si + 1) = si * (d / si) + si := by ring
    omega
  have e2 : d + 1 + si - 1 = si * (d / si + 1) + d % si := by
    have e0 : si * (d / si + 1) = si * (d / si) + si := by ring
    omega
  have e3 : (d % si - 1) / si = 0 := Nat.div_eq_of_lt (by omega)
  have e4 : d % si / si = 0 := Nat.div_eq_of_lt hrlt
  rw [waveCeil, waveCeil, e1, e2, Nat.mul_add_div hsi, Nat.mul_add_div hsi]
  omega

theorem day_le_of_waveCeil_le {d si : ℕ} (hsi : 0 < si) (h : waveCeil d si ≤ 18) :
    d ≤ 18 * si := by
  unfold waveCeil at h
  have h2 : d + si - 1 < 19 * si := (Nat.div_lt_iff_lt_mul hsi).mp (by omega)
  omega

theorem pow_le_500000 {k : ℕ} (h : 2 ^ k ≤ 500000) : k ≤ 18 := by
  by_contra hc
  push_neg at hc
  have h2 : 2 ^ 19 ≤ 2 ^ k := Nat.pow_le_pow_right (by norm_num) hc
  norm_num at h2
  omega

/-- The arithmetic facts of one exposure wave (lines 163–167 of the source):
the new-infection count is non-negative and fits the drawn range, the
exposure pointer stays within `[exposed_before, population]`, the cumulative
count stays below the pointer, and either the pointer saturates or the
cumulative count at least doubles. -/
theorem waveNums_core {p : Params} {pop eb total : ℕ} (hlt : eb < pop) (htot : total ≤ eb)
    (hr0 : 1 ≤ p.r0) :
    0 ≤ (waveNums p pop eb total).1 ∧
    (eb : ℤ) ≤ (waveNums p pop eb total).2 ∧
    (waveNums p pop eb total).2 ≤ (pop : ℤ) ∧
    (total : ℤ) + (waveNums p pop eb total).1 ≤ (waveNums p pop eb total).2 ∧
    (waveNums p pop eb total).1 ≤ (waveNums p pop eb total).2 - (eb : ℤ) ∧
    ((waveNums p pop eb total).2 = (pop : ℤ) ∨
      (total : ℤ) ≤ (waveNums p pop eb total).1) := by
  have hden : (0 : ℤ) < (p.r0.den : ℤ) := by exact_mod_cast p.r0.pos
  have hnum : (p.r0.den : ℤ) ≤ p.r0.num := den_le_num_of_one_le hr0
  have htot0 : (0 : ℤ) ≤ (total : ℤ) := by positivity
  have hnn0tot : (total : ℤ) ≤ pyRoundI (p.r0.num * total) p.r0.den := by
    apply le_pyRoundI hden
    calc (total : ℤ) * p.r0.den ≤ (total : ℤ) * p.r0.num := by
          exact mul_le_mul_of_nonneg_left hnum htot0
      _ = p.r0.num * total := by ring
  have hnn00 : 0 ≤ pyRoundI (p.r0.num * total) p.r0.den := le_trans htot0 hnn0tot
  have hcush : pyRoundI (p.r0.num * total) p.r0.den ≤
      pyRoundI (pyRoundI (p.r0.num * total) p.r0.den * 11) 10 := by
    apply le_pyRoundI (by norm_num)
    nlinarith
  have hcush0 : 0 ≤ pyRoundI (pyRoundI (p.r0.num * total) p.r0.den * 11) 10 :=
    le_trans hnn00 hcush
  have hebZ : (0 : ℤ) < (pop : ℤ) - (eb : ℤ) := by
    have h1 : (eb : ℤ) < (pop : ℤ) := by exact_mod_cast hlt
    omega
  have htotZ : (total : ℤ) ≤ (eb : ℤ) := by exact_mod_cast htot
  unfold waveNums
  dsimp only
  split
  · rename_i hclamp
    have hclampN : 0 ≤ pyRoundI (((pop : ℤ) - (eb : ℤ)) * 9) 10 :=
      pyRoundI_nonneg (by nlinarith) (by norm_num)
    have hclampLe : pyRoundI (((pop : ℤ) - (eb : ℤ)) * 9) 10 ≤ (pop : ℤ) - (eb : ℤ) := by
      apply pyRoundI_le (by norm_num)
      nlinarith
    dsimp only
    refine ⟨hclampN, by omega, le_refl _, by omega, by omega, Or.inl rfl⟩
  · rename_i hnoclamp
    push_neg at hnoclamp
    dsimp only
    refine ⟨hnn00, by omega, hnoclamp, by omega, by omega, Or.inr hnn0tot⟩

/-- The drained list of a successful `drainCat` equals the bucket of the day
(when an out-of-keys day necessarily has an empty bucket). -/
theorem drain_eq {fast : ℕ} {f : ℕ → List ℕ} {day : ℕ} {l : List ℕ}
    (hd : drainCat fast f day = .ok l) (hemp : f day ≠ [] → fast ≤ day) : l = f day := by
  rcases drainCat_ok.mp hd with ⟨-, -, rfl⟩ | ⟨hlt', rfl⟩
  · rfl
  · by_cases hfd : f day = []
    · exact hfd.symm
    · exact absurd (hemp hfd) (by omega)

/-- The outcome groups of a successful `assign_symptoms` partition the newly
infected batch: sizes add up to the batch size, each group is `Nodup`, drawn
from the batch, and the groups are pairwise disjoint. -/
theorem groups_count {p : Params} {o : Oracle} (ho : o.WF) {day n : ℕ} {new : List ℕ}
    {mb rb db : ℕ → List ℕ} {tick : ℕ} {sy : SymptomsOut}
    (h : assign_symptoms p o day n new mb rb db tick = .ok sy)
    (hlen : new.length = n) (hnd : new.Nodup) :
    sy.mild_indices.length + sy.severe_indices.length + sy.death_indices.length = n ∧
    sy.mild_indices.Nodup ∧ sy.severe_indices.Nodup ∧ sy.death_indices.Nodup ∧
    (∀ x ∈ sy.mild_indices, x ∈ new) ∧ (∀ x ∈ sy.severe_indices, x ∈ new) ∧
    (∀ x ∈ sy.death_indices, x ∈ new) ∧
    (∀ x, x ∈ sy.mild_indices → x ∉ sy.severe_indices) ∧
    (∀ x, x ∈ sy.mild_indices → x ∉ sy.death_indices) ∧
    (∀ x, x ∈ sy.severe_indices → x ∉ sy.death_indices) := by
  obtain ⟨t1, t2, mb1, t3, rb1, t4, h1, hps, hsev, hdeath, -, -, -, -, -⟩ :=
    assign_symptoms_ok_elim h
  rw [npChoice_ok] at h1
  obtain ⟨hm0, hmle, hmi, -⟩ := h1
  have hmk : (mildReq p n).toNat ≤ new.length := by omega
  obtain ⟨hmlen, hmnd', hmsub⟩ := ho.1 tick new (mildReq p n).toNat hmk
  rw [← hmi] at hmlen hmsub
  have hmnd : sy.mild_indices.Nodup := by
    rw [hmi]
    exact (ho.1 tick new (mildReq p n).toNat hmk).2.1 hnd
  have hmle' : sy.mild_indices.length ≤ n := by omega
  have hremlen : (new.filter (fun i => !(sy.mild_indices.contains i))).length =
      n - sy.mild_indices.length := by
    rw [length_filter_ncontains hnd hmnd hmsub, hlen]
  have hremnd : (new.filter (fun i => !(sy.mild_indices.contains i))).Nodup := hnd.filter _
  rcases hsev with ⟨hem, hsi, -⟩ | ⟨hem, h2⟩
  · have hreme : (new.filter (fun i => !(sy.mild_indices.contains i))) = [] :=
      List.isEmpty_iff.mp hem
    have hlm : sy.mild_indices.length = n := by
      rw [hreme] at hremlen
      simp at hremlen
      omega
    rw [hdeath, if_pos hem, hsi]
    refine ⟨by simpa using hlm, hmnd, by simp, by simp, hmsub, by simp, by simp,
      by simp, by simp, by simp⟩
  · rw [npChoice_ok] at h2
    obtain ⟨hs0, hsle, hsi, -⟩ := h2
    have hsk : (severeRecReq p n).toNat ≤
        (new.filter (fun i => !(sy.mild_indices.contains i))).length := by omega
    obtain ⟨hslen, hsnd', hssub⟩ := ho.1 t1 _ (severeRecReq p n).toNat hsk
    rw [← hsi] at hslen hssub
    have hsnd : sy.severe_indices.Nodup := by
      rw [hsi]
      exact (ho.1 t1 _ (severeRecReq p n).toNat hsk).2.1 hremnd
    have hsinrem : ∀ x ∈ sy.severe_indices, x ∈ new ∧ x ∉ sy.mild_indices := by
      intro x hx
      exact mem_filter_ncontains.mp (hssub x hx)
    have hdval : sy.death_indices =
        (new.filter (fun i => !(sy.mild_indices.contains i))).filter
          (fun i => !(sy.severe_indices.contains i)) := by
      have hcond : ¬((new.filter (fun i => !(sy.mild_indices.contains i))).isEmpty = true) := by
        rw [hem]
        simp
      rw [hdeath, if_neg hcond]
    have hdlen : sy.death_indices.length =
        (n - sy.mild_indices.length) - sy.severe_indices.length := by
      rw [hdval, length_filter_ncontains hremnd hsnd hssub, hremlen]
    have hdnd : sy.death_indices.Nodup := by
      rw [hdval]
      exact hremnd.filter _
    have hdinrem : ∀ x ∈ sy.death_indices, (x ∈ new ∧ x ∉ sy.mild_indices) ∧
        x ∉ sy.severe_indices := by
      intro x hx
      rw [hdval] at hx
      have h5 := mem_filter_ncontains.mp hx
      exact ⟨mem_filter_ncontains.mp h5.1, h5.2⟩
    have hslen' : sy.severe_indices.length ≤ n - sy.mild_indices.length := by
      rw [hremlen] at hsle
      omega
    refine ⟨by omega, hmnd, hsnd, hdnd, hmsub, fun x hx => (hsinrem x hx).1,
      fun x hx => (hdinrem x hx).1.1, ?_, ?_, ?_⟩
    · intro x hx hx'
      exact (hsinrem x hx').2 hx
    · intro x hx hx'
      exact (hdinrem x hx').1.2 hx
    · intro x hx hx'
      exact (hdinrem x hx').2 hx

theorem inv_init {p : Params} {pop : ℕ} (hp : p.Sane) (hmin : MIN_POPULATION ≤ pop)
    (hmax : pop ≤ MAX_POPULATION) : Inv p pop (initState pop p) := by
  obtain ⟨-, -, -, hinc, hσ, hmr, -, -, hhor⟩ := hp
  have h500 : (500 : ℕ) ≤ pop := hmin
  have hmf1 : 1 ≤ p.mild_fast := le_trans hinc (Nat.le_add_right _ _)
  have hmfH : p.mild_fast < horizonT p := by
    have h1 : p.mild_fast ≤ p.mild_slow := by
      unfold Params.mild_fast Params.mild_slow
      omega
    have h2 : p.mild_slow ≤ maxSlow p := le_max_left _ _
    have h3 : 0 < 18 * p.serial_interval := by omega
    unfold horizonT
    omega
  have hmem : ∀ c t x, x ∈ bucketOf (initState pop p) c t →
      c = 0 ∧ t = p.mild_fast ∧ x = 0 := by
    intro c t x hx
    fin_cases c <;> simp only [bucketOf, initState] at hx
    · by_cases ht : t = p.mild_fast
      · rw [ht, if_pos rfl] at hx
        simp at hx
        exact ⟨rfl, ht, hx⟩
      · rw [if_neg ht] at hx
        simp at hx
    · simp at hx
    · simp at hx
  refine
    { pop_eq := rfl
      pop_max := hmax
      conserve := by simp [initState]
      total_le := by simp [initState]
      ea_le := ?_
      ea_pos := by simp [initState]
      entries_lt := ?_
      sev_pos := ?_
      zero_mild := by simp [initState]
      nodupB := ?_
      disjB := ?_
      inRange := ?_
      pending := ?_
      growth := ?_ }
  · show (1 : ℕ) ≤ pop
    omega
  · intro c t x hx
    obtain ⟨-, -, rfl⟩ := hmem c t x hx
    simp [initState]
  · intro t x hx
    rcases hx with hx | hx
    · have := hmem 1 t x hx
      simp at this
    · have := hmem 2 t x hx
      simp at this
  · intro c t
    fin_cases c <;> simp only [bucketOf, initState]
    · split <;> simp
    · simp
    · simp
  · intro c t c' t' hne x hx hx'
    obtain ⟨hc, ht, -⟩ := hmem c t x hx
    obtain ⟨hc', ht', -⟩ := hmem c' t' x hx'
    exact hne (by rw [hc, ht, hc', ht'])
  · intro c t hne
    fin_cases c <;> simp only [bucketOf, initState] at hne
    · by_cases ht : t = p.mild_fast
      · subst ht
        exact ⟨le_refl _, hmfH⟩
      · rw [if_neg ht] at hne
        simp at hne
    · simp at hne
    · simp at hne
  · show (pendingCount (initState pop p) : ℤ) = (initState pop p).num_currently_infected
    have hsum : pendingCount (initState pop p) = 1 := by
      unfold pendingCount initState
      simp only
      have hpt : ∀ t, ((if t = p.mild_fast then [0] else [] : List ℕ).length +
          ([] : List ℕ).length + ([] : List ℕ).length) =
          (if t = p.mild_fast then 1 else 0) := by
        intro t
        split <;> simp
      rw [Finset.sum_congr rfl (fun t _ => hpt t)]
      rw [Finset.sum_ite_eq' (Finset.Ico (0 + 1) 365) p.mild_fast (fun _ => 1)]
      rw [if_pos]
      rw [Finset.mem_Ico]
      omega
    rw [hsum]
    rfl
  · refine Or.inr ?_
    have hwc : waveCeil 0 p.serial_interval = 0 := by
      unfold waveCeil
      simp only [Nat.zero_add]
      exact Nat.div_eq_of_lt (by omega)
    show 2 ^ waveCeil (initState pop p).day p.serial_interval ≤
      (initState pop p).total_num_infected
    simp only [initState]
    rw [hwc]
    exact le_refl _

theorem pair_ne_of_snd {c : Fin 3} {t t' : ℕ} (h : t ≠ t') :
    ((c, t) : Fin 3 × ℕ) ≠ (c, t') :=
  fun heq => h (congrArg Prod.snd heq)

theorem pair_ne_of_fst {c c' : Fin 3} {t t' : ℕ} (h : c ≠ c') :
    ((c, t) : Fin 3 × ℕ) ≠ (c', t') :=
  fun heq => h (congrArg Prod.fst heq)

/-- One successful step preserves the invariant. -/
theorem inv_step {p : Params} {o : Oracle} {pop : ℕ} {s s' : VState} {δ : DayDelta}
    (hp : p.Sane) (ho : o.WF)
    (hinv : Inv p pop s) (h : spread_virus p o s = .ok (s', δ)) : Inv p pop s' := by
  have hmax : pop ≤ MAX_POPULATION := hinv.pop_max
  obtain ⟨hr0, hpm0, hpm1, hinc, hσ, hmrr, hsrr, hdrr, hhor⟩ := hp
  have hmf1 : 1 ≤ p.mild_fast := le_trans hinc (Nat.le_add_right _ _)
  have hsf1 : 1 ≤ p.severe_fast := le_trans hinc (Nat.le_add_right _ _)
  have hdf1 : 1 ≤ p.death_fast := le_trans hinc (Nat.le_add_right _ _)
  obtain ⟨hσ0, hcases⟩ := spread_virus_ok_elim h
  rcases hcases with ⟨hnw, hfin⟩ | ⟨hmod, hlt, lst, tick1, sy, hch, has, hfin⟩
  · -- no exposure wave this step
    rw [finishDay_ok] at hfin
    obtain ⟨mD, rD, dD, hd1, hd2, hd3, rfl, -⟩ := hfin
    have hm : mD = s.mild (s.day + 1) :=
      drain_eq hd1 (fun hne => (hinv.inRange 0 _ hne).1)
    have hr2 : rD = s.severe_recovery (s.day + 1) :=
      drain_eq hd2 (fun hne => (hinv.inRange 1 _ hne).1)
    have hd3' : dD = s.severe_death (s.day + 1) :=
      drain_eq hd3 (fun hne => (hinv.inRange 2 _ hne).1)
    refine
      { pop_eq := hinv.pop_eq
        pop_max := hinv.pop_max
        conserve := ?_
        total_le := hinv.total_le
        ea_le := hinv.ea_le
        ea_pos := hinv.ea_pos
        entries_lt := ?_
        sev_pos := fun t x hx => hinv.sev_pos t x hx
        zero_mild := hinv.zero_mild
        nodupB := ?_
        disjB := ?_
        inRange := ?_
        pending := ?_
        growth := ?_ }
    · have hc := hinv.conserve
      push_cast
      linarith
    · intro c t x hx
      fin_cases c
      · exact lt_of_lt_of_le (hinv.entries_lt 0 t x hx) (le_refl _)
      · exact lt_of_lt_of_le (hinv.entries_lt 1 t x hx) (le_refl _)
      · exact lt_of_lt_of_le (hinv.entries_lt 2 t x hx) (le_refl _)
    · intro c t
      fin_cases c
      · exact hinv.nodupB 0 t
      · exact hinv.nodupB 1 t
      · exact hinv.nodupB 2 t
    · intro c t c' t' hne x hx hx'
      fin_cases c <;> fin_cases c' <;>
        exact hinv.disjB _ t _ t' hne x hx hx'
    · intro c t hne
      fin_cases c
      · exact hinv.inRange 0 t hne
      · exact hinv.inRange 1 t hne
      · exact hinv.inRange 2 t hne
    · -- pending bookkeeping without a wave
      have hps := hinv.pending
      by_cases h365 : s.day + 1 < 365
      · have hsplit : ∑ t ∈ Finset.Ico (s.day + 1) 365,
            ((s.mild t).length + (s.severe_recovery t).length + (s.severe_death t).length) =
            ((s.mild (s.day + 1)).length + (s.severe_recovery (s.day + 1)).length +
              (s.severe_death (s.day + 1)).length) +
            ∑ t ∈ Finset.Ico (s.day + 1 + 1) 365,
              ((s.mild t).length + (s.severe_recovery t).length + (s.severe_death t).length) :=
          Finset.sum_eq_sum_Ico_succ_bot h365 _
        have he1 : pendingCount s = ((s.mild (s.day + 1)).length +
            (s.severe_recovery (s.day + 1)).length + (s.severe_death (s.day + 1)).length) +
            pendingCount { s with
              day := s.day + 1,
              total_num_infected := s.total_num_infected } := by
          unfold pendingCount
          exact hsplit
        show (pendingCount _ : ℤ) = _
        unfold pendingCount at he1 hps ⊢
        simp only at he1 hps ⊢
        rw [hm, hr2, hd3']
        omega
      · have hemp : ∀ t, s.day + 1 ≤ t →
            (s.mild t).length + (s.severe_recovery t).length + (s.severe_death t).length = 0 := by
          intro t ht
          have e0 : s.mild t = [] := by
            by_contra hne
            have := (hinv.inRange 0 t hne).2
            omega
          have e1 : s.severe_recovery t = [] := by
            by_contra hne
            have := (hinv.inRange 1 t hne).2
            omega
          have e2 : s.severe_death t = [] := by
            by_contra hne
            have := (hinv.inRange 2 t hne).2
            omega
          rw [e0, e1, e2]
          rfl
        have hz1 : pendingCount s = 0 := by
          unfold pendingCount
          apply Finset.sum_eq_zero
          intro t ht
          exact hemp t (Finset.mem_Ico.mp ht).1
        show (pendingCount _ : ℤ) = _
        unfold pendingCount
        simp only
        rw [Finset.Ico_eq_empty (by omega), Finset.sum_empty]
        have hlen : (s.mild (s.day + 1)).length + (s.severe_recovery (s.day + 1)).length +
            (s.severe_death (s.day + 1)).length = 0 := hemp _ (le_refl _)
        have hps' := hinv.pending
        rw [hz1] at hps'
        rw [hm, hr2, hd3']
        omega
    · by_cases hm2 : s.day % p.serial_interval = 0
      · left
        have hge : s.num_population ≤ s.exposed_after := by
          by_contra hc
          push_neg at hc
          exact hnw ⟨hm2, hc⟩
        have := hinv.ea_le
        have := hinv.pop_eq
        show s.exposed_after = pop
        omega
      · rcases hinv.growth with hg | hg
        · exact Or.inl hg
        · right
          show 2 ^ waveCeil (s.day + 1) p.serial_interval ≤ s.total_num_infected
          rw [waveCeil_ndvd hσ hm2]
          exact hg
  · -- exposure-wave step
    rw [npChoice_ok] at hch
    obtain ⟨hnn0, hnnle, hlst, htick1⟩ := hch
    have hcore := waveNums_core (p := p) hlt hinv.total_le hr0
    set nn := (waveNums p s.num_population s.exposed_after s.total_num_infected).1 with hnndef
    set ea := (waveNums p s.num_population s.exposed_after s.total_num_infected).2 with headef
    obtain ⟨c1, c2, c3, c4, c5, c6⟩ := hcore
    have heaNat : (ea.toNat : ℤ) = ea := Int.toNat_of_nonneg (by omega)
    have hnnNat : (nn.toNat : ℤ) = nn := Int.toNat_of_nonneg c1
    have hebea : s.exposed_after ≤ ea.toNat := by omega
    have hpop' : s.num_population = pop := hinv.pop_eq
    have heapop : ea.toNat ≤ pop := by
      rw [hpop'] at c3
      omega
    have hsrcnd : (List.range' s.exposed_after (ea.toNat - s.exposed_after)).Nodup := by
      apply List.nodup_range'
      norm_num
    have hsrclen : (List.range' s.exposed_after (ea.toNat - s.exposed_after)).length =
        ea.toNat - s.exposed_after := by
      simp [List.length_range']
    have hkle : nn.toNat ≤ (List.range' s.exposed_after (ea.toNat - s.exposed_after)).length := by
      rw [hsrclen]
      omega
    obtain ⟨hlstlen, hlstnd', hlstsub⟩ := ho.1 s.rng _ nn.toNat hkle
    rw [← hlst] at hlstlen hlstsub
    have hlstnd : lst.Nodup := by
      rw [hlst]
      exact hlstnd' hsrcnd
    have hlstmem : ∀ x ∈ lst, s.exposed_after ≤ x ∧ x < ea.toNat := by
      intro x hx
      have h1 := hlstsub x hx
      rw [List.mem_range'_1] at h1
      omega
    obtain ⟨hcnt, hmnd, hsnd, hdnd, hmsubL, hssubL, hdsubL, hms, hmd, hsd⟩ :=
      groups_count ho has hlstlen hlstnd
    obtain ⟨t1', t2', mb1, t3', rb1, t4', hch2, hps, hsevb, hdeathEq, hsa1, hsa2, hsa3,
      hmbeq, hrbeq⟩ := assign_symptoms_ok_elim has
    have hfreshAll : ∀ x ∈ lst, ∀ (c : Fin 3) t, x ∉ bucketOf s c t := by
      intro x hx c t hmem
      have h1 := hinv.entries_lt c t x hmem
      have h2 := (hlstmem x hx).1
      omega
    obtain ⟨am1, am2, am3, am4⟩ := scheduleAll_strong hsa1 hmnd
      (fun x hx t => hfreshAll x (hmsubL x hx) 0 t)
      (fun t => hinv.nodupB 0 t)
      (fun t t' htt x => hinv.disjB 0 t 0 t' (pair_ne_of_snd htt) x)
    obtain ⟨ar1, ar2, ar3, ar4⟩ := scheduleAll_strong hsa2 hsnd
      (fun x hx t => hfreshAll x (hssubL x hx) 1 t)
      (fun t => hinv.nodupB 1 t)
      (fun t t' htt x => hinv.disjB 1 t 1 t' (pair_ne_of_snd htt) x)
    obtain ⟨ad1, ad2, ad3, ad4⟩ := scheduleAll_strong hsa3 hdnd
      (fun x hx t => hfreshAll x (hdsubL x hx) 2 t)
      (fun t => hinv.nodupB 2 t)
      (fun t t' htt x => hinv.disjB 2 t 2 t' (pair_ne_of_snd htt) x)
    have hday18 : s.day ≤ 18 * p.serial_interval := by
      rcases hinv.growth with hg | hg
      · rw [hpop'] at hlt
        rw [hg] at hlt
        omega
      · have h2 : 2 ^ waveCeil s.day p.serial_interval ≤ pop :=
          le_trans hg (le_trans hinv.total_le hinv.ea_le)
        have h3 : 2 ^ waveCeil s.day p.serial_interval ≤ 500000 := le_trans h2 hmax
        exact day_le_of_waveCeil_le hσ (pow_le_500000 h3)
    have hIRm : ∀ t, mb1 t ≠ [] → p.mild_fast ≤ t ∧ t < horizonT p := by
      intro t hne
      obtain ⟨extra, hext, hmemx, hbnd⟩ := scheduleAll_append ho hsa1 t
      by_cases hex : extra = []
      · rw [hex, List.append_nil] at hext
        refine hinv.inRange 0 t ?_
        show s.mild t ≠ []
        rw [← hext]
        exact hne
      · obtain ⟨hf, h365', hlow, hhigh⟩ := hbnd hex
        have hms2 : p.mild_slow ≤ maxSlow p := le_max_left _ _
        refine ⟨hf, ?_⟩
        unfold horizonT
        omega
    have hIRr : ∀ t, rb1 t ≠ [] → p.severe_fast ≤ t ∧ t < horizonT p := by
      intro t hne
      obtain ⟨extra, hext, hmemx, hbnd⟩ := scheduleAll_append ho hsa2 t
      by_cases hex : extra = []
      · rw [hex, List.append_nil] at hext
        refine hinv.inRange 1 t ?_
        show s.severe_recovery t ≠ []
        rw [← hext]
        exact hne
      · obtain ⟨hf, h365', hlow, hhigh⟩ := hbnd hex
        have hms2 : p.severe_slow ≤ maxSlow p := le_trans (le_max_left _ _) (le_max_right _ _)
        refine ⟨hf, ?_⟩
        unfold horizonT
        omega
    have hIRd : ∀ t, sy.sevDB t ≠ [] → p.death_fast ≤ t ∧ t < horizonT p := by
      intro t hne
      obtain ⟨extra, hext, hmemx, hbnd⟩ := scheduleAll_append ho hsa3 t
      by_cases hex : extra = []
      · rw [hex, List.append_nil] at hext
        refine hinv.inRange 2 t ?_
        show s.severe_death t ≠ []
        rw [← hext]
        exact hne
      · obtain ⟨hf, h365', hlow, hhigh⟩ := hbnd hex
        have hms2 : p.death_slow ≤ maxSlow p := le_trans (le_max_right _ _) (le_max_right _ _)
        refine ⟨hf, ?_⟩
        unfold horizonT
        omega
    rw [finishDay_ok] at hfin
    obtain ⟨mD, rD, dD, hdr1, hdr2, hdr3, rfl, -⟩ := hfin
    have hmDv : mD = mb1 (s.day + 1) := by
      have := drain_eq hdr1 (fun hne => (hIRm (s.day + 1) (by rw [← hmbeq]; exact hne)).1)
      rw [this, hmbeq]
    have hrDv : rD = rb1 (s.day + 1) := by
      have := drain_eq hdr2 (fun hne => (hIRr (s.day + 1) (by rw [← hrbeq]; exact hne)).1)
      rw [this, hrbeq]
    have hdDv : dD = sy.sevDB (s.day + 1) :=
      drain_eq hdr3 (fun hne => (hIRd (s.day + 1) hne).1)
    refine
      { pop_eq := hpop'
        pop_max := hinv.pop_max
        conserve := ?_
        total_le := ?_
        ea_le := heapop
        ea_pos := ?_
        entries_lt := ?_
        sev_pos := ?_
        zero_mild := ?_
        nodupB := ?_
        disjB := ?_
        inRange := ?_
        pending := ?_
        growth := ?_ }
    · have hc := hinv.conserve
      push_cast
      linarith
    · show s.total_num_infected + nn.toNat ≤ ea.toNat
      have := hinv.total_le
      omega
    · show 1 ≤ ea.toNat
      have := hinv.ea_pos
      omega
    · intro c t x hx
      fin_cases c
      · have hx' : x ∈ mb1 t := by rw [← hmbeq]; exact hx
        rcases am3 x t hx' with hold | hnew
        · have := hinv.entries_lt 0 t x hold
          show x < ea.toNat
          omega
        · exact (hlstmem x (hmsubL x hnew)).2
      · have hx' : x ∈ rb1 t := by rw [← hrbeq]; exact hx
        rcases ar3 x t hx' with hold | hnew
        · have := hinv.entries_lt 1 t x hold
          show x < ea.toNat
          omega
        · exact (hlstmem x (hssubL x hnew)).2
      · rcases ad3 x t hx with hold | hnew
        · have := hinv.entries_lt 2 t x hold
          show x < ea.toNat
          omega
        · exact (hlstmem x (hdsubL x hnew)).2
    · intro t x hx
      rcases hx with hx | hx
      · have hx' : x ∈ rb1 t := by rw [← hrbeq]; exact hx
        rcases ar3 x t hx' with hold | hnew
        · exact hinv.sev_pos t x (Or.inl hold)
        · have := (hlstmem x (hssubL x hnew)).1
          have := hinv.ea_pos
          omega
      · rcases ad3 x t hx with hold | hnew
        · exact hinv.sev_pos t x (Or.inr hold)
        · have := (hlstmem x (hdsubL x hnew)).1
          have := hinv.ea_pos
          omega
    · show 0 ∈ sy.mildB p.mild_fast
      rw [hmbeq]
      exact am4 0 _ hinv.zero_mild
    · intro c t
      fin_cases c
      · show (sy.mildB t).Nodup
        rw [hmbeq]
        exact am1 t
      · show (sy.sevRB t).Nodup
        rw [hrbeq]
        exact ar1 t
      · exact ad1 t
    · -- pairwise disjointness of all buckets
      have hmemM : ∀ x t, x ∈ sy.mildB t → x ∈ s.mild t ∨ x ∈ sy.mild_indices := by
        intro x t hx
        exact am3 x t (by rw [← hmbeq]; exact hx)
      have hmemR : ∀ x t, x ∈ sy.sevRB t → x ∈ s.severe_recovery t ∨ x ∈ sy.severe_indices := by
        intro x t hx
        exact ar3 x t (by rw [← hrbeq]; exact hx)
      have hmemD : ∀ x t, x ∈ sy.sevDB t → x ∈ s.severe_death t ∨ x ∈ sy.death_indices :=
        fun x t hx => ad3 x t hx
      have hfresh0 : ∀ x, (x ∈ sy.mild_indices ∨ x ∈ sy.severe_indices ∨
          x ∈ sy.death_indices) → ∀ (c : Fin 3) t, x ∉ bucketOf s c t := by
        intro x hx c t
        rcases hx with hx | hx | hx
        · exact hfreshAll x (hmsubL x hx) c t
        · exact hfreshAll x (hssubL x hx) c t
        · exact hfreshAll x (hdsubL x hx) c t
      intro c t c' t' hne x hx hx'
      fin_cases c <;> fin_cases c'
      · -- mild vs mild
        have htt : t ≠ t' := fun heq => hne (by rw [heq])
        exact am2 t t' htt x (by rw [← hmbeq]; exact hx) (by rw [← hmbeq]; exact hx')
      · -- mild vs severe-recovery
        rcases hmemM x t hx with h1 | h1 <;> rcases hmemR x t' hx' with h2 | h2
        · exact hinv.disjB 0 t 1 t' (pair_ne_of_fst (by decide)) x h1 h2
        · exact hfresh0 x (Or.inr (Or.inl h2)) 0 t h1
        · exact hfresh0 x (Or.inl h1) 1 t' h2
        · exact hms x h1 h2
      · -- mild vs death
        rcases hmemM x t hx with h1 | h1 <;> rcases hmemD x t' hx' with h2 | h2
        · exact hinv.disjB 0 t 2 t' (pair_ne_of_fst (by decide)) x h1 h2
        · exact hfresh0 x (Or.inr (Or.inr h2)) 0 t h1
        · exact hfresh0 x (Or.inl h1) 2 t' h2
        · exact hmd x h1 h2
      · -- severe vs mild
        rcases hmemR x t hx with h1 | h1 <;> rcases hmemM x t' hx' with h2 | h2
        · exact hinv.disjB 1 t 0 t' (pair_ne_of_fst (by decide)) x h1 h2
        · exact hfresh0 x (Or.inl h2) 1 t h1
        · exact hfresh0 x (Or.inr (Or.inl h1)) 0 t' h2
        · exact hms x h2 h1
      · -- severe vs severe
        have htt : t ≠ t' := fun heq => hne (by rw [heq])
        exact ar2 t t' htt x (by rw [← hrbeq]; exact hx) (by rw [← hrbeq]; exact hx')
      · -- severe vs death
        rcases hmemR x t hx with h1 | h1 <;> rcases hmemD x t' hx' with h2 | h2
        · exact hinv.disjB 1 t 2 t' (pair_ne_of_fst (by decide)) x h1 h2
        · exact hfresh0 x (Or.inr (Or.inr h2)) 1 t h1
        · exact hfresh0 x (Or.inr (Or.inl h1)) 2 t' h2
        · exact hsd x h1 h2
      · -- death vs mild
        rcases hmemD x t hx with h1 | h1 <;> rcases hmemM x t' hx' with h2 | h2
        · exact hinv.disjB 2 t 0 t' (pair_ne_of_fst (by decide)) x h1 h2
        · exact hfresh0 x (Or.inl h2) 2 t h1
        · exact hfresh0 x (Or.inr (Or.inr h1)) 0 t' h2
        · exact hmd x h2 h1
      · -- death vs severe
        rcases hmemD x t hx with h1 | h1 <;> rcases hmemR x t' hx' with h2 | h2
        · exact hinv.disjB 2 t 1 t' (pair_ne_of_fst (by decide)) x h1 h2
        · exact hfresh0 x (Or.inr (Or.inl h2)) 2 t h1
        · exact hfresh0 x (Or.inr (Or.inr h1)) 1 t' h2
        · exact hsd x h2 h1
      · -- death vs death
        have htt : t ≠ t' := fun heq => hne (by rw [heq])
        exact ad2 t t' htt x hx hx'
    · intro c t
      fin_cases c
      · intro hne
        exact hIRm t (by rw [← hmbeq]; exact hne)
      · intro hne
        exact hIRr t (by rw [← hrbeq]; exact hne)
      · intro hne
        exact hIRd t hne
    · -- pending bookkeeping with a wave
      have hsum1 : ∑ t ∈ Finset.Ico (s.day + 1) 365, (mb1 t).length =
          (∑ t ∈ Finset.Ico (s.day + 1) 365, (s.mild t).length) + sy.mild_indices.length :=
        scheduleAll_sum ho (by omega) hsa1
      have hsum2 : ∑ t ∈ Finset.Ico (s.day + 1) 365, (rb1 t).length =
          (∑ t ∈ Finset.Ico (s.day + 1) 365, (s.severe_recovery t).length) +
            sy.severe_indices.length :=
        scheduleAll_sum ho (by omega) hsa2
      have hsum3 : ∑ t ∈ Finset.Ico (s.day + 1) 365, (sy.sevDB t).length =
          (∑ t ∈ Finset.Ico (s.day + 1) 365, (s.severe_death t).length) +
            sy.death_indices.length :=
        scheduleAll_sum ho (by omega) hsa3
      have hsplit3 : ∀ (f g k : ℕ → List ℕ) (a : ℕ),
          ∑ t ∈ Finset.Ico a 365, ((f t).length + (g t).length + (k t).length) =
          (∑ t ∈ Finset.Ico a 365, (f t).length) + (∑ t ∈ Finset.Ico a 365, (g t).length) +
            (∑ t ∈ Finset.Ico a 365, (k t).length) := by
        intro f g k a
        rw [Finset.sum_add_distrib, Finset.sum_add_distrib]
      have hps0 := hinv.pending
      have hpsN : pendingCount s = s.num_currently_infected.toNat := by omega
      show (pendingCount _ : ℤ) = _
      unfold pendingCount at hps0 ⊢
      simp only
      rw [hsplit3]
      rw [hsplit3] at hps0
      by_cases h365 : s.day + 1 < 365
      · have hb1 : ∑ t ∈ Finset.Ico (s.day + 1) 365, (mb1 t).length =
            (mb1 (s.day + 1)).length + ∑ t ∈ Finset.Ico (s.day + 1 + 1) 365, (mb1 t).length :=
          Finset.sum_eq_sum_Ico_succ_bot h365 _
        have hb2 : ∑ t ∈ Finset.Ico (s.day + 1) 365, (rb1 t).length =
            (rb1 (s.day + 1)).length + ∑ t ∈ Finset.Ico (s.day + 1 + 1) 365, (rb1 t).length :=
          Finset.sum_eq_sum_Ico_succ_bot h365 _
        have hb3 : ∑ t ∈ Finset.Ico (s.day + 1) 365, (sy.sevDB t).length =
            (sy.sevDB (s.day + 1)).length +
              ∑ t ∈ Finset.Ico (s.day + 1 + 1) 365, (sy.sevDB t).length :=
          Finset.sum_eq_sum_Ico_succ_bot h365 _
        have hlm : ∀ t, (sy.mildB t).length = (mb1 t).length := by
          intro t
          rw [hmbeq]
        have hlr : ∀ t, (sy.sevRB t).length = (rb1 t).length := by
          intro t
          rw [hrbeq]
        simp only [hlm, hlr]
        rw [hmDv, hrDv, hdDv]
        omega
      · have hico : Finset.Ico (s.day + 1 + 1) 365 = ∅ := Finset.Ico_eq_empty (by omega)
        have hico0 : Finset.Ico (s.day + 1) 365 = ∅ := Finset.Ico_eq_empty (by omega)
        rw [hico0] at hsum1 hsum2 hsum3 hps0
        simp only [Finset.sum_empty] at hsum1 hsum2 hsum3 hps0
        have hmbe : mb1 (s.day + 1) = [] := by
          by_contra hne
          have := (hIRm _ hne).2
          omega
        have hrbe : rb1 (s.day + 1) = [] := by
          by_contra hne
          have := (hIRr _ hne).2
          omega
        have hdbe : sy.sevDB (s.day + 1) = [] := by
          by_contra hne
          have := (hIRd _ hne).2
          omega
        have hlm : ∀ t, (sy.mildB t).length = (mb1 t).length := by
          intro t
          rw [hmbeq]
        have hlr : ∀ t, (sy.sevRB t).length = (rb1 t).length := by
          intro t
          rw [hrbeq]
        simp only [hlm, hlr]
        rw [hico, hmDv, hrDv, hdDv, hmbe, hrbe, hdbe]
        simp only [Finset.sum_empty, List.length_nil]
        omega
    · -- growth with a wave
      have hwc := waveCeil_dvd hσ hmod
      rcases c6 with hsat | hdbl
      · left
        show ea.toNat = pop
        rw [hpop'] at hsat
        omega
      · right
        show 2 ^ waveCeil (s.day + 1) p.serial_interval ≤ s.total_num_infected + nn.toNat
        rw [hwc.2]
        have hgrow : 2 ^ (s.day / p.serial_interval) ≤ s.total_num_infected := by
          rcases hinv.growth with hg | hg
          · rw [hpop'] at hlt
            rw [hg] at hlt
            omega
          · rw [hwc.1] at hg
            exact hg
        have hpow : 2 ^ (s.day / p.serial_interval + 1) =
            2 * 2 ^ (s.day / p.serial_interval) := by ring
        omega

/-- Every reachable state satisfies the invariant. -/
theorem inv_of_reachable {p : Params} {o : Oracle} {pop : ℕ} {s : VState}
    (hp : p.Sane) (ho : o.WF) (hr : Reachable p o pop s) : Inv p pop s := by
  induction hr with
  | init hmin hmax => exact inv_init hp hmin hmax
  | step hr2 hdone hstep ih => exact inv_step hp ho ih hstep

/-- A step advances the day by exactly one (both in the state and in the
emitted delta) and never decreases the cumulative counters. -/
theorem spread_counters {p : Params} {o : Oracle} {s s' : VState} {δ : DayDelta}
    (h : spread_virus p o s = .ok (s', δ)) :
    s'.day = s.day + 1 ∧ δ.day = s.day + 1 ∧
    s.total_num_infected ≤ s'.total_num_infected ∧
    s.num_recovered ≤ s'.num_recovered ∧ s.num_deaths ≤ s'.num_deaths := by
  obtain ⟨-, hc⟩ := spread_virus_ok_elim h
  rcases hc with ⟨-, hfin⟩ | ⟨-, -, lst, t1, sy, -, -, hfin⟩ <;>
  · rw [finishDay_ok] at hfin
    obtain ⟨mD, rD, dD, -, -, -, rfl, rfl⟩ := hfin
    refine ⟨rfl, rfl, ?_, ?_, ?_⟩ <;> dsimp only <;> omega

/-- Buckets only ever grow across a step. -/
theorem spread_buckets_mono {p : Params} {o : Oracle} (ho : o.WF) {s s' : VState}
    {δ : DayDelta} (h : spread_virus p o s = .ok (s', δ)) :
    ∀ (c : Fin 3) t x, x ∈ bucketOf s c t → x ∈ bucketOf s' c t := by
  obtain ⟨-, hc⟩ := spread_virus_ok_elim h
  rcases hc with ⟨-, hfin⟩ | ⟨-, -, lst, t1, sy, -, has, hfin⟩
  · rw [finishDay_ok] at hfin
    obtain ⟨mD, rD, dD, -, -, -, rfl, -⟩ := hfin
    intro c t x hx
    fin_cases c <;> exact hx
  · obtain ⟨t1', t2', mb1, t3', rb1, t4', -, -, -, -, hsa1, hsa2, hsa3, hmbeq, hrbeq⟩ :=
      assign_symptoms_ok_elim has
    rw [finishDay_ok] at hfin
    obtain ⟨mD, rD, dD, -, -, -, rfl, -⟩ := hfin
    intro c t x hx
    fin_cases c
    · show x ∈ sy.mildB t
      rw [hmbeq]
      obtain ⟨extra, hext, -, -⟩ := scheduleAll_append ho hsa1 t
      rw [hext]
      exact List.mem_append_left _ hx
    · show x ∈ sy.sevRB t
      rw [hrbeq]
      obtain ⟨extra, hext, -, -⟩ := scheduleAll_append ho hsa2 t
      rw [hext]
      exact List.mem_append_left _ hx
    · show x ∈ sy.sevDB t
      obtain ⟨extra, hext, -, -⟩ := scheduleAll_append ho hsa3 t
      rw [hext]
      exact List.mem_append_left _ hx

/-- What a step resolves today comes from today's buckets of the post-state. -/
theorem spread_delta_resolved {p : Params} {o : Oracle} {s s' : VState} {δ : DayDelta}
    (h : spread_virus p o s = .ok (s', δ)) :
    (∀ x ∈ δ.newlyRecovered, x ∈ bucketOf s' 0 s'.day ∨ x ∈ bucketOf s' 1 s'.day) ∧
    (∀ x ∈ δ.newlyDead, x ∈ bucketOf s' 2 s'.day) := by
  obtain ⟨-, hc⟩ := spread_virus_ok_elim h
  rcases hc with ⟨-, hfin⟩ | ⟨-, -, lst, t1, sy, -, -, hfin⟩ <;>
  · rw [finishDay_ok] at hfin
    obtain ⟨mD, rD, dD, hd1, hd2, hd3, rfl, rfl⟩ := hfin
    have hsub : ∀ {fast f l}, drainCat fast f (s.day + 1) = .ok l →
        ∀ x ∈ l, x ∈ f (s.day + 1) := by
      intro fast f l hd x hx
      rcases drainCat_ok.mp hd with ⟨-, -, rfl⟩ | ⟨-, rfl⟩
      · exact hx
      · simp at hx
    constructor
    · intro x hx
      rcases List.mem_append.mp hx with hx | hx
      · exact Or.inl (hsub hd1 x hx)
      · exact Or.inr (hsub hd2 x hx)
    · intro x hx
      exact hsub hd3 x hx

/-- The driver stays put once the epidemic is over. -/
theorem iterG_done {p : Params} {o : Oracle} {k : ℕ} {s : VState}
    (hdone : isDone s = true) : iterG p o k s = .ok (s, []) := by
  cases k with
  | zero => rfl
  | succ k => simp [iterG, hdone]

/-- Splitting a bounded run. -/
theorem iterG_add (p : Params) (o : Oracle) (a : ℕ) :
    ∀ (b : ℕ) (s : VState), iterG p o (a + b) s =
      (iterG p o a s) >>= fun r =>
        (iterG p o b r.1).map fun r2 => (r2.1, r.2 ++ r2.2) := by
  induction a with
  | zero =>
    intro b s
    rw [Nat.zero_add]
    show iterG p o b s = (Except.ok (s, ([] : List DayDelta))) >>= fun r =>
      (iterG p o b r.1).map fun r2 => (r2.1, r.2 ++ r2.2)
    cases hb : iterG p o b s with
    | ok r2 => simp [Bind.bind, Except.bind, Except.map, hb]
    | error e => simp [Bind.bind, Except.bind, Except.map, hb]
  | succ a ih =>
    intro b s
    have hsa : a + 1 + b = (a + b) + 1 := by omega
    rw [hsa]
    simp only [iterG]
    by_cases hd : isDone s
    · simp [hd, iterG_done hd, Bind.bind, Except.bind, Except.map]
    · have hd' : isDone s = false := by simpa using hd
      simp only [hd', Bool.false_eq_true, if_false]
      cases hsv : spread_virus p o s with
      | error e => simp [Bind.bind, Except.bind, hsv]
      | ok r1 =>
        obtain ⟨s1, δ⟩ := r1
        simp only [Bind.bind, Except.bind, hsv]
        rw [ih b s1]
        cases ha : iterG p o a s1 with
        | error e => simp [Bind.bind, Except.bind, ha]
        | ok ra =>
          simp only [Bind.bind, Except.bind, ha]
          cases hb : iterG p o b ra.1 with
          | error e => simp [Except.map, hb, Bind.bind, Except.bind]
          | ok rb => simp [Except.map, hb, Bind.bind, Except.bind]

/-- A failed run stays failed when allowed more steps. -/
theorem iterG_error_mono {p : Params} {o : Oracle} {n : ℕ} {s : VState} {e : Err}
    (h : iterG p o n s = .error e) : ∀ m, n ≤ m → iterG p o m s = .error e := by
  intro m hm
  obtain ⟨d, rfl⟩ : ∃ d, m = n + d := ⟨m - n, by omega⟩
  rw [iterG_add, h]
  rfl

/-- Day count along a bounded run: either the run finished early, or the day
advanced by exactly the number of steps. -/
theorem iterG_day {p : Params} {o : Oracle} :
    ∀ {k : ℕ} {s s' : VState} {tr : List DayDelta}, iterG p o k s = .ok (s', tr) →
      isDone s' = true ∨ s'.day = s.day + k := by
  intro k
  induction k with
  | zero =>
    intro s s' tr h
    simp only [iterG, Except.ok.injEq, Prod.mk.injEq] at h
    right
    rw [← h.1]
    omega
  | succ k ih =>
    intro s s' tr h
    simp only [iterG] at h
    split at h
    · rename_i hd
      simp only [Except.ok.injEq, Prod.mk.injEq] at h
      left
      rw [← h.1]
      assumption
    · rw [except_bind_ok] at h
      obtain ⟨⟨s1, δ⟩, h1, h⟩ := h
      dsimp only at h
      rw [except_bind_ok] at h
      obtain ⟨⟨s2, tr2⟩, h2, h3⟩ := h
      simp only [Except.ok.injEq, Prod.mk.injEq] at h3
      have hday := (spread_counters h1).1
      rcases ih h2 with hdone | hd2
      · left
        rw [← h3.1]
        exact hdone
      · right
        rw [← h3.1, hd2, hday]
        omega

/-- The final state of a bounded run is reachable. -/
theorem iterG_reachable {p : Params} {o : Oracle} {pop : ℕ} :
    ∀ {k : ℕ} {s s' : VState} {tr : List DayDelta}, Reachable p o pop s →
      iterG p o k s = .ok (s', tr) → Reachable p o pop s' := by
  intro k
  induction k with
  | zero =>
    intro s s' tr hr h
    simp only [iterG, Except.ok.injEq, Prod.mk.injEq] at h
    rw [← h.1]
    exact hr
  | succ k ih =>
    intro s s' tr hr h
    simp only [iterG] at h
    split at h
    · rename_i hd
      simp only [Except.ok.injEq, Prod.mk.injEq] at h
      rw [← h.1]
      exact hr
    · rename_i hd
      rw [except_bind_ok] at h
      obtain ⟨⟨s1, δ⟩, h1, h⟩ := h
      dsimp only at h
      rw [except_bind_ok] at h
      obtain ⟨⟨s2, tr2⟩, h2, h3⟩ := h
      simp only [Except.ok.injEq, Prod.mk.injEq] at h3
      have hr1 : Reachable p o pop s1 :=
        Reachable.step hr (by simpa using hd) h1
      rw [← h3.1]
      exact ih hr1 h2

/-- The influenza preset is one of the named presets. -/
theorem influenza_mem : INFLUENZA_PARAMS ∈ VIRUSES := by
  simp [VIRUSES]

/-- The influenza preset is sane. -/
theorem influenza_sane : INFLUENZA_PARAMS.Sane :=
  VIRUSES_sane INFLUENZA_PARAMS influenza_mem

/-- **C1** (confirmed).  For every reachable state of the simulation, the
counters satisfy `currentlyInfected + recovered + deaths = totalInfected`,
and `totalInfected ≤ populationSize`. -/
theorem c1_conservation_invariant {p : Params} {o : Oracle} {pop : ℕ} {s : VState}
    (hp : p.Sane) (ho : o.WF) (hr : Reachable p o pop s) :
    s.num_currently_infected + s.num_recovered + s.num_deaths =
      (s.total_num_infected : ℤ) ∧
    s.total_num_infected ≤ s.num_population := by
  have hinv := inv_of_reachable hp ho hr
  refine ⟨hinv.conserve, ?_⟩
  rw [hinv.pop_eq]
  exact le_trans hinv.total_le hinv.ea_le

/-- Witness for C1: the invariant at the (reachable) initial state of an
influenza run with population 500. -/
theorem c1_conservation_invariant_witness :
    (initState 500 INFLUENZA_PARAMS).num_currently_infected +
        (initState 500 INFLUENZA_PARAMS).num_recovered +
        (initState 500 INFLUENZA_PARAMS).num_deaths =
      ((initState 500 INFLUENZA_PARAMS).total_num_infected : ℤ) ∧
    (initState 500 INFLUENZA_PARAMS).total_num_infected ≤
      (initState 500 INFLUENZA_PARAMS).num_population :=
  c1_conservation_invariant influenza_sane canonicalOracle_wf
    (Reachable.init (by decide) (by decide))

/-- `pyRoundI` on a rational's numerator and denominator scaled by a natural
number computes the rounding of the rational product. -/
theorem pyRoundI_num_den (q : ℚ) (n : ℕ) :
    pyRoundI (q.num * n) q.den = pyRound (q * n) := by
  rw [pyRoundI_eq_pyRound _ _ (by exact_mod_cast q.pos)]
  congr 1
  push_cast
  rw [mul_div_right_comm, Rat.num_div_den]

/-- The `* 11 / 10` cushion of the source computes the specification's
`round(numNewInfected * 1.1)`. -/
theorem pyRoundI_cushion (m : ℤ) :
    pyRoundI (m * 11) 10 = pyRound ((m : ℚ) * 1.1) := by
  rw [pyRoundI_eq_pyRound _ _ (by norm_num)]
  congr 1
  push_cast
  norm_num
  ring

/-- The `* 9 / 10` clamp of the source computes the specification's
`round(0.9 * remaining)`. -/
theorem pyRoundI_ninety (a : ℤ) :
    pyRoundI (a * 9) 10 = pyRound ((0.9 : ℚ) * (a : ℚ)) := by
  rw [pyRoundI_eq_pyRound _ _ (by norm_num)]
  congr 1
  push_cast
  norm_num
  ring

/-- The integer-pair wave arithmetic of the embedding computes the
specification's formulas. -/
theorem waveNums_eq_spec (p : Params) (pop eb tot : ℕ) :
    waveNums p pop eb tot = specWaveNums p pop eb tot := by
  simp only [waveNums, specWaveNums]
  rw [pyRoundI_num_den, pyRoundI_cushion]
  have h9 : pyRoundI (((pop : ℤ) - (eb : ℤ)) * 9) 10 =
      pyRound ((0.9 : ℚ) * ((pop : ℚ) - (eb : ℚ))) := by
    rw [pyRoundI_ninety]
    congr 2
    push_cast
    ring
  rw [h9]

/-- **C2** (confirmed).  On a wave day with unexposed individuals remaining,
the step computes `numNewInfected = round(r0 * totalInfected)`, advances the
exposure pointer by `round(numNewInfected * 1.1)`, clamps the pointer to the
population size — recomputing `numNewInfected = round(0.9 * (populationSize -
exposedBefore))` — when it would pass it, and draws that many distinct
identities from `[exposedBefore, exposedAfter)`. -/
theorem c2_wave_formulas {p : Params} {o : Oracle} {s s' : VState} {δ : DayDelta}
    (hp : p.Sane) (ho : o.WF)
    (hwave : s.day % p.serial_interval = 0) (hlt : s.exposed_after < s.num_population)
    (htot : s.total_num_infected ≤ s.exposed_after)
    (h : spread_virus p o s = .ok (s', δ)) :
    s'.exposed_before = s.exposed_after ∧
    (s'.exposed_after : ℤ) =
      (specWaveNums p s.num_population s.exposed_after s.total_num_infected).2 ∧
    (s'.total_num_infected : ℤ) = (s.total_num_infected : ℤ) +
      (specWaveNums p s.num_population s.exposed_after s.total_num_infected).1 ∧
    (δ.newlyExposed.length : ℤ) =
      (specWaveNums p s.num_population s.exposed_after s.total_num_infected).1 ∧
    δ.newlyExposed.Nodup ∧
    ∀ x ∈ δ.newlyExposed, s.exposed_after ≤ x ∧
      (x : ℤ) < (specWaveNums p s.num_population s.exposed_after s.total_num_infected).2 := by
  rw [← waveNums_eq_spec]
  obtain ⟨hσ, hcase⟩ := spread_virus_ok_elim h
  rcases hcase with ⟨hnot, -⟩ | ⟨-, -, lst, tick1, sy, hch, hassign, hfin⟩
  · exact absurd ⟨hwave, hlt⟩ hnot
  rw [npChoice_ok] at hch
  obtain ⟨hk0, hklen, hlst, -⟩ := hch
  have hcore := waveNums_core (p := p) hlt htot hp.1
  set nn := (waveNums p s.num_population s.exposed_after s.total_num_infected).1 with hnndef
  set ea := (waveNums p s.num_population s.exposed_after s.total_num_infected).2 with headef
  obtain ⟨c1, c2, c3, c4, c5, -⟩ := hcore
  have heaNat : (ea.toNat : ℤ) = ea := Int.toNat_of_nonneg (by omega)
  have hnnNat : (nn.toNat : ℤ) = nn := Int.toNat_of_nonneg c1
  have hsrclen : (List.range' s.exposed_after (ea.toNat - s.exposed_after)).length =
      ea.toNat - s.exposed_after := by
    simp [List.length_range']
  have hkle : nn.toNat ≤ (List.range' s.exposed_after (ea.toNat - s.exposed_after)).length := by
    rw [hsrclen]
    omega
  obtain ⟨hlstlen, hlstnd', hlstsub⟩ := ho.1 s.rng _ nn.toNat hkle
  rw [← hlst] at hlstlen hlstsub
  have hsrcnd : (List.range' s.exposed_after (ea.toNat - s.exposed_after)).Nodup := by
    apply List.nodup_range'
    norm_num
  have hlstnd : lst.Nodup := by
    rw [hlst]
    exact hlstnd' hsrcnd
  have hlstmem : ∀ x ∈ lst, s.exposed_after ≤ x ∧ x < ea.toNat := by
    intro x hx
    have h1 := hlstsub x hx
    rw [List.mem_range'_1] at h1
    omega
  rw [finishDay_ok] at hfin
  obtain ⟨mildD, sevRD, sevDD, -, -, -, rfl, rfl⟩ := hfin
  refine ⟨rfl, ?_, ?_, ?_, hlstnd, ?_⟩
  · exact heaNat
  · dsimp only
    push_cast
    omega
  · dsimp only
    omega
  · intro x hx
    have h1 := hlstmem x hx
    refine ⟨h1.1, ?_⟩
    omega

/-- Witness for C2: the day-0 wave of an influenza run with population 500. -/
theorem c2_wave_formulas_witness :
    (stepResult INFLUENZA_PARAMS canonicalOracle
        (initState 500 INFLUENZA_PARAMS)).1.exposed_before =
      (initState 500 INFLUENZA_PARAMS).exposed_after ∧
    ((stepResult INFLUENZA_PARAMS canonicalOracle
        (initState 500 INFLUENZA_PARAMS)).1.exposed_after : ℤ) =
      (specWaveNums INFLUENZA_PARAMS (initState 500 INFLUENZA_PARAMS).num_population
        (initState 500 INFLUENZA_PARAMS).exposed_after
        (initState 500 INFLUENZA_PARAMS).total_num_infected).2 ∧
    ((stepResult INFLUENZA_PARAMS canonicalOracle
        (initState 500 INFLUENZA_PARAMS)).1.total_num_infected : ℤ) =
      ((initState 500 INFLUENZA_PARAMS).total_num_infected : ℤ) +
      (specWaveNums INFLUENZA_PARAMS (initState 500 INFLUENZA_PARAMS).num_population
        (initState 500 INFLUENZA_PARAMS).exposed_after
        (initState 500 INFLUENZA_PARAMS).total_num_infected).1 ∧
    (((stepResult INFLUENZA_PARAMS canonicalOracle
        (initState 500 INFLUENZA_PARAMS)).2.newlyExposed.length : ℤ)) =
      (specWaveNums INFLUENZA_PARAMS (initState 500 INFLUENZA_PARAMS).num_population
        (initState 500 INFLUENZA_PARAMS).exposed_after
        (initState 500 INFLUENZA_PARAMS).total_num_infected).1 ∧
    (stepResult INFLUENZA_PARAMS canonicalOracle
        (initState 500 INFLUENZA_PARAMS)).2.newlyExposed.Nodup ∧
    ∀ x ∈ (stepResult INFLUENZA_PARAMS canonicalOracle
        (initState 500 INFLUENZA_PARAMS)).2.newlyExposed,
      (initState 500 INFLUENZA_PARAMS).exposed_after ≤ x ∧
      (x : ℤ) < (specWaveNums INFLUENZA_PARAMS (initState 500 INFLUENZA_PARAMS).num_population
        (initState 500 INFLUENZA_PARAMS).exposed_after
        (initState 500 INFLUENZA_PARAMS).total_num_infected).2 :=
  c2_wave_formulas influenza_sane canonicalOracle_wf (by decide) (by decide) (by decide)
    (show spread_virus INFLUENZA_PARAMS canonicalOracle (initState 500 INFLUENZA_PARAMS) =
        Except.ok
          ((stepResult INFLUENZA_PARAMS canonicalOracle (initState 500 INFLUENZA_PARAMS)).1,
            (stepResult INFLUENZA_PARAMS canonicalOracle (initState 500 INFLUENZA_PARAMS)).2)
      from rfl)

/-- **C3** (corrected, amended form).  From any reachable state, the wave
draw requests a non-negative sample no larger than its source interval
`[exposedBefore, exposedAfter)`, and the mild draw requests at most the
batch size; a request larger than its source — which the severe-recovery
draw can issue — makes `np.random.choice` fail fast with
`SamplingSizeExceeded`, and a successful draw returns exactly the requested
number of identities, never a truncation. -/
theorem c3_amended_draw_sizes {p : Params} {o : Oracle} {pop : ℕ} {s : VState}
    (hp : p.Sane) (ho : o.WF) (hr : Reachable p o pop s)
    (hwave : s.day % p.serial_interval = 0) (hlt : s.exposed_after < s.num_population) :
    (0 ≤ (waveNums p s.num_population s.exposed_after s.total_num_infected).1 ∧
      (waveNums p s.num_population s.exposed_after s.total_num_infected).1 ≤
        (waveNums p s.num_population s.exposed_after s.total_num_infected).2 -
          (s.exposed_after : ℤ)) ∧
    (∀ n : ℕ, 0 ≤ mildReq p n ∧ mildReq p n ≤ (n : ℤ)) ∧
    (∀ (tick : ℕ) (src : List ℕ) (k : ℤ), (src.length : ℤ) < k →
        npChoice o tick src k = .error .samplingSizeExceeded) ∧
    (∀ (tick : ℕ) (src : List ℕ) (k : ℤ) (lst : List ℕ) (tick' : ℕ),
        npChoice o tick src k = .ok (lst, tick') →
        k.toNat ≤ src.length ∧ lst.length = k.toNat) := by
  have hinv := inv_of_reachable hp ho hr
  have hcore := waveNums_core hlt hinv.total_le hp.1
  refine ⟨⟨hcore.1, hcore.2.2.2.2.1⟩, ?_, ?_, ?_⟩
  · intro n
    have hn : (0 : ℤ) ≤ (n : ℤ) := by positivity
    have hden : (0 : ℤ) < (p.percent_mild.den : ℤ) := by exact_mod_cast p.percent_mild.pos
    constructor
    · apply pyRoundI_nonneg _ (by omega)
      have hnum : 0 ≤ p.percent_mild.num := Rat.num_nonneg.mpr hp.2.1
      exact mul_nonneg hnum hn
    · apply pyRoundI_le hden
      have hnum := num_le_den_of_le_one hp.2.2.1
      nlinarith
  · intro tick src k hk
    unfold npChoice
    by_cases hneg : k < 0
    · rw [if_pos hneg]
    · rw [if_neg hneg, if_pos hk]
  · intro tick src k lst tick' hok
    rw [npChoice_ok] at hok
    obtain ⟨h0, hle, hlst, -⟩ := hok
    refine ⟨by omega, ?_⟩
    rw [hlst]
    exact (ho.1 tick src k.toNat (by omega)).1

/-- Counterexample to C3 as stated: with the influenza preset and the valid
population 502, the run is alive after 21 steps and the 22nd step's
severe-recovery draw requests more identities than its source holds, so the
sampling-size discipline is violated on a real step and the run aborts. -/
theorem c3_counterexample :
    resOk (iterG INFLUENZA_PARAMS canonicalOracle 21 (initState 502 INFLUENZA_PARAMS)) = true ∧
    resDone (iterG INFLUENZA_PARAMS canonicalOracle 21 (initState 502 INFLUENZA_PARAMS)) =
      false ∧
    iterG INFLUENZA_PARAMS canonicalOracle 22 (initState 502 INFLUENZA_PARAMS) =
      .error .samplingSizeExceeded :=
  ⟨rfl, rfl, rfl⟩

/-- Witness for C3 (amended): the initial influenza state with population
500. -/
theorem c3_amended_draw_sizes_witness :
    (0 ≤ (waveNums INFLUENZA_PARAMS (initState 500 INFLUENZA_PARAMS).num_population
        (initState 500 INFLUENZA_PARAMS).exposed_after
        (initState 500 INFLUENZA_PARAMS).total_num_infected).1 ∧
      (waveNums INFLUENZA_PARAMS (initState 500 INFLUENZA_PARAMS).num_population
        (initState 500 INFLUENZA_PARAMS).exposed_after
        (initState 500 INFLUENZA_PARAMS).total_num_infected).1 ≤
        (waveNums INFLUENZA_PARAMS (initState 500 INFLUENZA_PARAMS).num_population
          (initState 500 INFLUENZA_PARAMS).exposed_after
          (initState 500 INFLUENZA_PARAMS).total_num_infected).2 -
          ((initState 500 INFLUENZA_PARAMS).exposed_after : ℤ)) ∧
    (∀ n : ℕ, 0 ≤ mildReq INFLUENZA_PARAMS n ∧ mildReq INFLUENZA_PARAMS n ≤ (n : ℤ)) ∧
    (∀ (tick : ℕ) (src : List ℕ) (k : ℤ), (src.length : ℤ) < k →
        npChoice canonicalOracle tick src k = .error .samplingSizeExceeded) ∧
    (∀ (tick : ℕ) (src : List ℕ) (k : ℤ) (lst : List ℕ) (tick' : ℕ),
        npChoice canonicalOracle tick src k = .ok (lst, tick') →
        k.toNat ≤ src.length ∧ lst.length = k.toNat) :=
  c3_amended_draw_sizes influenza_sane canonicalOracle_wf
    (Reachable.init (by decide) (by decide)) (by decide) (by decide)

/-- **C4** (confirmed).  Across consecutive steps the cumulative counters
`totalInfected`, `recovered`, `deaths` never decrease, and `day` increases
by exactly `1` per step (wave day or not), both in the state and in the
emitted `DayDelta`. -/
theorem c4_monotone_counters {p : Params} {o : Oracle} {s s' : VState} {δ : DayDelta}
    (h : spread_virus p o s = .ok (s', δ)) :
    s'.day = s.day + 1 ∧ δ.day = s.day + 1 ∧
    s.total_num_infected ≤ s'.total_num_infected ∧
    s.num_recovered ≤ s'.num_recovered ∧
    s.num_deaths ≤ s'.num_deaths :=
  spread_counters h

/-- Witness for C4: the first step of an influenza run with population 500. -/
theorem c4_monotone_counters_witness :
    (stepResult INFLUENZA_PARAMS canonicalOracle (initState 500 INFLUENZA_PARAMS)).1.day =
      (initState 500 INFLUENZA_PARAMS).day + 1 ∧
    (stepResult INFLUENZA_PARAMS canonicalOracle (initState 500 INFLUENZA_PARAMS)).2.day =
      (initState 500 INFLUENZA_PARAMS).day + 1 ∧
    (initState 500 INFLUENZA_PARAMS).total_num_infected ≤
      (stepResult INFLUENZA_PARAMS canonicalOracle
        (initState 500 INFLUENZA_PARAMS)).1.total_num_infected ∧
    (initState 500 INFLUENZA_PARAMS).num_recovered ≤
      (stepResult INFLUENZA_PARAMS canonicalOracle
        (initState 500 INFLUENZA_PARAMS)).1.num_recovered ∧
    (initState 500 INFLUENZA_PARAMS).num_deaths ≤
      (stepResult INFLUENZA_PARAMS canonicalOracle
        (initState 500 INFLUENZA_PARAMS)).1.num_deaths :=
  c4_monotone_counters
    (show spread_virus INFLUENZA_PARAMS canonicalOracle (initState 500 INFLUENZA_PARAMS) =
        Except.ok
          ((stepResult INFLUENZA_PARAMS canonicalOracle (initState 500 INFLUENZA_PARAMS)).1,
            (stepResult INFLUENZA_PARAMS canonicalOracle (initState 500 INFLUENZA_PARAMS)).2)
      from rfl)

/-- **C5** (corrected).  With population 500 and the influenza preset
(`r0 = 1.3`, `serialInterval = 3`): day 0 starts with exactly one infected
individual, but an exposure wave fires already during the first step (since
`0 % 3 = 0`), so the cumulative count is already 2 entering day 1, and after
the step of the day-3 wave the cumulative count is 5 — not 2 as claimed. -/
theorem c5_amended_day_three_total :
    (initState 500 INFLUENZA_PARAMS).total_num_infected = 1 ∧
    resTotal (iterG INFLUENZA_PARAMS canonicalOracle 1 (initState 500 INFLUENZA_PARAMS)) = 2 ∧
    resTotal (iterG INFLUENZA_PARAMS canonicalOracle 4 (initState 500 INFLUENZA_PARAMS)) = 5 :=
  ⟨rfl, rfl, rfl⟩

/-- Counterexample to C5 as stated: running the four steps that contain the
day-0 and day-3 waves leaves `totalInfected` at 5, not 2. -/
theorem c5_counterexample :
    resTotal (iterG INFLUENZA_PARAMS canonicalOracle 4 (initState 500 INFLUENZA_PARAMS)) ≠ 2 := by
    have h : resTotal (iterG INFLUENZA_PARAMS canonicalOracle 4
        (initState 500 INFLUENZA_PARAMS)) = 5 := rfl
    rw [h]
    decide

/-- **C6** (confirmed).  Construction with a population strictly below
`MIN_POPULATION = 500` or strictly above `MAX_POPULATION = 500000` fails with
`InvalidPopulationSize`; any size in the closed range (the boundaries
included) constructs the initial state and nothing else. -/
theorem c6_population_bounds (p : Params) (n : ℕ) :
    (n < MIN_POPULATION ∨ MAX_POPULATION < n →
      create p n = .error .invalidPopulationSize) ∧
    (MIN_POPULATION ≤ n → n ≤ MAX_POPULATION → create p n = .ok (initState n p)) := by
  constructor
  · intro hout
    unfold create
    rw [if_pos hout]
  · intro h1 h2
    unfold create
    rw [if_neg]
    push_neg
    exact ⟨by omega, by omega⟩

/-- Witness for C6: both boundaries construct, both outside neighbours are
rejected (influenza preset). -/
theorem c6_population_bounds_witness :
    create INFLUENZA_PARAMS 499 = .error .invalidPopulationSize ∧
    create INFLUENZA_PARAMS 500 = .ok (initState 500 INFLUENZA_PARAMS) ∧
    create INFLUENZA_PARAMS 500000 = .ok (initState 500000 INFLUENZA_PARAMS) ∧
    create INFLUENZA_PARAMS 500001 = .error .invalidPopulationSize :=
  ⟨(c6_population_bounds INFLUENZA_PARAMS 499).1 (by decide),
   (c6_population_bounds INFLUENZA_PARAMS 500).2 (by decide) (by decide),
   (c6_population_bounds INFLUENZA_PARAMS 500000).2 (by decide) (by decide),
   (c6_population_bounds INFLUENZA_PARAMS 500001).1 (by decide)⟩

/-- **C7** (corrected, amended form).  For every named preset and every
valid population size, a run of the driver that survives the 365-day horizon
has necessarily finished: after 365 steps `isDone` holds (`recovered +
deaths = totalInfected`).  (As stated the claim is false: a run can instead
abort with `SamplingSizeExceeded` before finishing, see the
counterexample.) -/
theorem c7_amended_termination {p : Params} {pop : ℕ} {o : Oracle} {s : VState}
    {tr : List DayDelta}
    (hpre : p ∈ VIRUSES) (hmin : MIN_POPULATION ≤ pop) (hmax : pop ≤ MAX_POPULATION)
    (ho : o.WF) (h : iterG p o 365 (initState pop p) = .ok (s, tr)) :
    isDone s = true := by
  have hp : p.Sane := VIRUSES_sane p hpre
  have hr : Reachable p o pop s := iterG_reachable (Reachable.init hmin hmax) h
  have hinv := inv_of_reachable hp ho hr
  rcases iterG_day h with hd | hday
  · exact hd
  · have hday' : s.day = 365 := by
      rw [hday]
      rfl
    have hpend : pendingCount s = 0 := by
      unfold pendingCount
      rw [hday']
      rw [Finset.Ico_eq_empty (by omega)]
      exact Finset.sum_empty
    have hcur : s.num_currently_infected = 0 := by
      rw [← hinv.pending, hpend]
      rfl
    have hcons := hinv.conserve
    rw [hcur] at hcons
    unfold isDone
    simp only [decide_eq_true_eq]
    omega

/-- Counterexample to C7 as stated: the influenza preset with the valid
population 502 never reaches `isDone` — the driver, given the whole 365-day
horizon, aborts with `SamplingSizeExceeded` instead. -/
theorem c7_counterexample :
    INFLUENZA_PARAMS ∈ VIRUSES ∧
    MIN_POPULATION ≤ 502 ∧ 502 ≤ MAX_POPULATION ∧
    iterG INFLUENZA_PARAMS canonicalOracle 365 (initState 502 INFLUENZA_PARAMS) =
      .error .samplingSizeExceeded :=
  ⟨influenza_mem, by decide, by decide,
   iterG_error_mono
     (show iterG INFLUENZA_PARAMS canonicalOracle 22 (initState 502 INFLUENZA_PARAMS) =
         .error .samplingSizeExceeded from rfl)
     365 (by omega)⟩

/-- Witness for C7 (amended): an influenza run with population 500 finishes
within the horizon. -/
theorem c7_amended_termination_witness :
    isDone (resState (iterG INFLUENZA_PARAMS canonicalOracle 365
      (initState 500 INFLUENZA_PARAMS))) = true :=
  c7_amended_termination influenza_mem (by decide) (by decide) canonicalOracle_wf
    (show iterG INFLUENZA_PARAMS canonicalOracle 365 (initState 500 INFLUENZA_PARAMS) =
        .ok (resState (iterG INFLUENZA_PARAMS canonicalOracle 365
              (initState 500 INFLUENZA_PARAMS)),
            resTrace (iterG INFLUENZA_PARAMS canonicalOracle 365
              (initState 500 INFLUENZA_PARAMS)))
      from rfl)

/-- Two bucket slots with different days never coincide. -/
theorem pair_ne_snd {c c' : Fin 3} {t t' : ℕ} (h : t ≠ t') :
    ((c, t) : Fin 3 × ℕ) ≠ (c', t') :=
  fun heq => h (congrArg Prod.snd heq)

/-- An identity sitting in a bucket at or before the current day is never
reported resolved by any later step: later steps only drain buckets of
strictly later days, and the slot holding the identity is unique. -/
theorem bucket_not_resolved_later {p : Params} {o : Oracle} {pop : ℕ}
    (hp : p.Sane) (ho : o.WF) :
    ∀ (k : ℕ) (u : VState) (c : Fin 3) (t x : ℕ) (s2 : VState) (tr : List DayDelta),
      Reachable p o pop u → x ∈ bucketOf u c t → t ≤ u.day →
      iterG p o k u = .ok (s2, tr) →
      ∀ δ ∈ tr, x ∉ δ.newlyRecovered ∧ x ∉ δ.newlyDead := by
  intro k
  induction k with
  | zero =>
    intro u c t x s2 tr hr hb ht hit δ hδ
    simp only [iterG, Except.ok.injEq, Prod.mk.injEq] at hit
    rw [← hit.2] at hδ
    simp at hδ
  | succ k ih =>
    intro u c t x s2 tr hr hb ht hit δ hδ
    simp only [iterG] at hit
    split at hit
    · simp only [Except.ok.injEq, Prod.mk.injEq] at hit
      rw [← hit.2] at hδ
      simp at hδ
    · rename_i hdone
      rw [except_bind_ok] at hit
      obtain ⟨⟨u1, δ1⟩, h1, hit⟩ := hit
      dsimp only at hit
      rw [except_bind_ok] at hit
      obtain ⟨⟨s2', tr1⟩, h2, h3⟩ := hit
      simp only [Except.ok.injEq, Prod.mk.injEq] at h3
      have hr1 : Reachable p o pop u1 := Reachable.step hr (by simpa using hdone) h1
      have hinv1 := inv_of_reachable hp ho hr1
      have hb1 : x ∈ bucketOf u1 c t := spread_buckets_mono ho h1 c t x hb
      have hday1 : u1.day = u.day + 1 := (spread_counters h1).1
      have hnotres : x ∉ δ1.newlyRecovered ∧ x ∉ δ1.newlyDead := by
        constructor
        · intro hxr
          rcases (spread_delta_resolved h1).1 x hxr with hx0 | hx1
          · exact hinv1.disjB c t 0 u1.day (pair_ne_snd (by omega)) x hb1 hx0
          · exact hinv1.disjB c t 1 u1.day (pair_ne_snd (by omega)) x hb1 hx1
        · intro hxd
          have hx2 := (spread_delta_resolved h1).2 x hxd
          exact hinv1.disjB c t 2 u1.day (pair_ne_snd (by omega)) x hb1 hx2
      rw [← h3.2] at hδ
      rcases List.mem_cons.mp hδ with rfl | hmem
      · exact hnotres
      · exact ih u1 c t x s2' tr1 hr1 hb1 (by omega) h2 δ hmem

/-- **C8** (confirmed).  Along any successful run, an identity reported in
`newlyRecovered` or `newlyDead` of an earlier `DayDelta` appears in neither
list of any later `DayDelta`: each individual is resolved exactly once. -/
theorem c8_no_double_resolution {p : Params} {o : Oracle} {pop : ℕ}
    (hp : p.Sane) (ho : o.WF) :
    ∀ (k : ℕ) (s s2 : VState) (tr : List DayDelta), Reachable p o pop s →
      iterG p o k s = .ok (s2, tr) →
      ∀ (i j : ℕ) (hi : i < tr.length) (hj : j < tr.length), i < j → ∀ x : ℕ,
        (x ∈ (tr.get ⟨i, hi⟩).newlyRecovered ∨ x ∈ (tr.get ⟨i, hi⟩).newlyDead) →
        x ∉ (tr.get ⟨j, hj⟩).newlyRecovered ∧ x ∉ (tr.get ⟨j, hj⟩).newlyDead := by
  intro k
  induction k with
  | zero =>
    intro s s2 tr hr hit i j hi hj hij x hx
    simp only [iterG, Except.ok.injEq, Prod.mk.injEq] at hit
    obtain ⟨-, h2⟩ := hit
    subst h2
    exact absurd hi (by simp)
  | succ k ih =>
    intro s s2 tr hr hit i j hi hj hij x hx
    simp only [iterG] at hit
    split at hit
    · simp only [Except.ok.injEq, Prod.mk.injEq] at hit
      obtain ⟨-, h2⟩ := hit
      subst h2
      exact absurd hi (by simp)
    · rename_i hdone
      rw [except_bind_ok] at hit
      obtain ⟨⟨u1, δ1⟩, h1, hit⟩ := hit
      dsimp only at hit
      rw [except_bind_ok] at hit
      obtain ⟨⟨s2', tr1⟩, h2, h3⟩ := hit
      simp only [Except.ok.injEq, Prod.mk.injEq] at h3
      obtain ⟨-, h3b⟩ := h3
      subst h3b
      have hr1 : Reachable p o pop u1 := Reachable.step hr (by simpa using hdone) h1
      cases i with
      | zero =>
        cases j with
        | zero => omega
        | succ j' =>
          have hres := spread_delta_resolved h1
          have hx' : ∃ c : Fin 3, x ∈ bucketOf u1 c u1.day := by
            rcases hx with hxr | hxd
            · rcases hres.1 x hxr with hmem | hmem
              exacts [⟨0, hmem⟩, ⟨1, hmem⟩]
            · exact ⟨2, hres.2 x hxd⟩
          obtain ⟨c, hc⟩ := hx'
          have hj' : j' < tr1.length := by
            simp only [List.length_cons] at hj
            omega
          have hlater := bucket_not_resolved_later hp ho k u1 c u1.day x s2' tr1 hr1 hc
            (le_refl _) h2 (tr1.get ⟨j', hj'⟩) (List.get_mem tr1 j' hj')
          exact hlater
      | succ i' =>
        cases j with
        | zero => omega
        | succ j' =>
          exact ih u1 s2' tr1 hr1 h2 i' j'
            (by simp only [List.length_cons] at hi; omega)
            (by simp only [List.length_cons] at hj; omega)
            (by omega) x hx

/-- Witness for C8: patient zero, recovered in the fifth delta of an
influenza run with population 500, is absent from both lists of the sixth. -/
theorem c8_no_double_resolution_witness :
    0 ∉ (c8Tr.get ⟨5, by decide⟩).newlyRecovered ∧
    0 ∉ (c8Tr.get ⟨5, by decide⟩).newlyDead :=
  c8_no_double_resolution influenza_sane canonicalOracle_wf 10
    (initState 500 INFLUENZA_PARAMS)
    (resState (iterG INFLUENZA_PARAMS canonicalOracle 10 (initState 500 INFLUENZA_PARAMS)))
    c8Tr (Reachable.init (by decide) (by decide))
    (show iterG INFLUENZA_PARAMS canonicalOracle 10 (initState 500 INFLUENZA_PARAMS) =
        .ok (resState (iterG INFLUENZA_PARAMS canonicalOracle 10
              (initState 500 INFLUENZA_PARAMS)), c8Tr)
      from rfl)
    4 5 (by decide) (by decide) (by decide) 0 (Or.inl (by decide))

/-- Complete runs from the same state with the same random stream agree on
the whole trace and the final state. -/
theorem sim_functional {p : Params} {o : Oracle} :
    ∀ {s : VState} {tr1 : List DayDelta} {s1 : VState}, Sim p o s tr1 s1 →
      ∀ {tr2 : List DayDelta} {s2 : VState}, Sim p o s tr2 s2 →
      tr1 = tr2 ∧ s1 = s2 := by
  intro s tr1 s1 h1
  induction h1 with
  | done hd =>
    intro tr2 s2 h2
    cases h2 with
    | done hd2 => exact ⟨rfl, rfl⟩
    | step hf2 hs2 hrest => rw [hd] at hf2; simp at hf2
  | step hf hs hrest ih =>
    intro tr2 s2 h2
    cases h2 with
    | done hd2 => rw [hd2] at hf; simp at hf
    | step hf2 hs2 hrest2 =>
      rw [hs] at hs2
      injection hs2 with hp2
      injection hp2 with e1 e2
      subst e1
      subst e2
      obtain ⟨htr, hfin⟩ := ih hrest2
      exact ⟨by rw [htr], hfin⟩

/-- A bounded run that has reached a finished state is a complete run of the
loop. -/
theorem sim_of_iterG {p : Params} {o : Oracle} (k : ℕ) :
    ∀ {s s' : VState} {tr : List DayDelta}, iterG p o k s = .ok (s', tr) →
      isDone s' = true → Sim p o s tr s' := by
  induction k with
  | zero =>
    intro s s' tr h hd
    simp only [iterG, Except.ok.injEq, Prod.mk.injEq] at h
    obtain ⟨h1, h2⟩ := h
    subst h1
    subst h2
    exact Sim.done hd
  | succ k ih =>
    intro s s' tr h hd
    simp only [iterG] at h
    split at h
    · rename_i hdone
      simp only [Except.ok.injEq, Prod.mk.injEq] at h
      obtain ⟨h1, h2⟩ := h
      subst h1
      subst h2
      exact Sim.done hd
    · rename_i hdone
      rw [except_bind_ok] at h
      obtain ⟨⟨u1, δ1⟩, h1, h⟩ := h
      dsimp only at h
      rw [except_bind_ok] at h
      obtain ⟨⟨s2', tr1⟩, h2, h3⟩ := h
      simp only [Except.ok.injEq, Prod.mk.injEq] at h3
      obtain ⟨h3a, h3b⟩ := h3
      subst h3a
      subst h3b
      exact Sim.step (by simpa using hdone) h1 (ih h2 hd)

/-- **C9** (confirmed).  With the random stream fixed (the same seed), any
two complete runs of the loop with population 500 and the influenza preset
produce identical sequences of day deltas and identical final states: the
simulation core is deterministic given the seed. -/
theorem c9_deterministic_given_seed {o : Oracle} {tr1 tr2 : List DayDelta}
    {s1 s2 : VState}
    (h1 : Sim INFLUENZA_PARAMS o (initState 500 INFLUENZA_PARAMS) tr1 s1)
    (h2 : Sim INFLUENZA_PARAMS o (initState 500 INFLUENZA_PARAMS) tr2 s2) :
    tr1 = tr2 ∧ s1 = s2 :=
  sim_functional h1 h2

/-- Witness for C9: the complete influenza/500 run under the canonical
seed, compared with itself. -/
theorem c9_deterministic_given_seed_witness :
    resTrace (iterG INFLUENZA_PARAMS canonicalOracle 60 (initState 500 INFLUENZA_PARAMS)) =
      resTrace (iterG INFLUENZA_PARAMS canonicalOracle 60
        (initState 500 INFLUENZA_PARAMS)) ∧
    resState (iterG INFLUENZA_PARAMS canonicalOracle 60 (initState 500 INFLUENZA_PARAMS)) =
      resState (iterG INFLUENZA_PARAMS canonicalOracle 60
        (initState 500 INFLUENZA_PARAMS)) :=
  c9_deterministic_given_seed
    (sim_of_iterG 60
      (show iterG INFLUENZA_PARAMS canonicalOracle 60 (initState 500 INFLUENZA_PARAMS) =
          .ok (resState (iterG INFLUENZA_PARAMS canonicalOracle 60
                (initState 500 INFLUENZA_PARAMS)),
              resTrace (iterG INFLUENZA_PARAMS canonicalOracle 60
                (initState 500 INFLUENZA_PARAMS)))
        from rfl) rfl)
    (sim_of_iterG 60
      (show iterG INFLUENZA_PARAMS canonicalOracle 60 (initState 500 INFLUENZA_PARAMS) =
          .ok (resState (iterG INFLUENZA_PARAMS canonicalOracle 60
                (initState 500 INFLUENZA_PARAMS)),
              resTrace (iterG INFLUENZA_PARAMS canonicalOracle 60
                (initState 500 INFLUENZA_PARAMS)))
        from rfl) rfl)

/-- **C10** (confirmed).  Patient zero (identity `0`) is pre-booked into the
mild schedule at exactly `mild_fast = incubation + mild_recovery.min`,
bypassing the random outcome assignment (the other schedules start empty and
never receive identity `0`); consequently on the day the delta's day equals
`mild_fast` patient zero is reported recovered, and no step ever reports
patient zero dead — for every parameter set, including those with
`percent_mild = 0`. -/
theorem c10_patient_zero {p : Params} {o : Oracle} {pop : ℕ} {s s' : VState} {δ : DayDelta}
    (hp : p.Sane) (ho : o.WF) (hr : Reachable p o pop s)
    (h : spread_virus p o s = .ok (s', δ)) :
    ((initState pop p).mild p.mild_fast = [0] ∧
      (∀ t, t ≠ p.mild_fast → (initState pop p).mild t = []) ∧
      (∀ t, (initState pop p).severe_recovery t = [] ∧
        (initState pop p).severe_death t = [])) ∧
    (∀ (c : Fin 3) (t : ℕ), 0 ∈ bucketOf s c t → c = 0 ∧ t = p.mild_fast) ∧
    (δ.day = p.mild_fast → 0 ∈ δ.newlyRecovered) ∧
    0 ∉ δ.newlyDead := by
  have hinv := inv_of_reachable hp ho hr
  have hinv' := inv_step hp ho hinv h
  have hmf365 : p.mild_fast < 365 := by
    have h1 : p.mild_fast ≤ p.mild_slow := by
      unfold Params.mild_fast Params.mild_slow
      have := hp.2.2.2.2.2.1
      omega
    have h2 : p.mild_slow ≤ maxSlow p := le_max_left _ _
    have h3 : 0 < p.serial_interval := hp.2.2.2.2.1
    have h4 := hp.2.2.2.2.2.2.2.2
    unfold horizonT at h4
    omega
  refine ⟨⟨by simp [initState], ?_, ?_⟩, ?_, ?_, ?_⟩
  · intro t ht
    simp [initState, ht]
  · intro t
    exact ⟨rfl, rfl⟩
  · intro c t h0
    by_cases hct : ((0 : Fin 3), p.mild_fast) = (c, t)
    · injection hct with h1 h2
      exact ⟨h1.symm, h2.symm⟩
    · exact absurd h0 (hinv.disjB 0 p.mild_fast c t hct 0 hinv.zero_mild)
  · intro hday
    obtain ⟨hσ, hcase⟩ := spread_virus_ok_elim h
    rcases hcase with ⟨-, hfin⟩ | ⟨-, -, lst, t1, sy, -, -, hfin⟩ <;>
    · rw [finishDay_ok] at hfin
      obtain ⟨mildD, sevRD, sevDD, hd1, -, -, rfl, rfl⟩ := hfin
      dsimp only at hday ⊢
      rcases drainCat_ok.mp hd1 with ⟨-, -, rfl⟩ | ⟨hlt2, -⟩
      · apply List.mem_append_left
        rw [hday]
        exact hinv'.zero_mild
      · omega
  · intro h0
    have h1 := (spread_delta_resolved h).2 0 h0
    have h2 : (0 : ℕ) ∈ s'.severe_death s'.day := h1
    have h3 := hinv'.sev_pos s'.day 0 (Or.inr h2)
    omega

/-- Witness for C10: the fifth step of an influenza run with population 500
(its delta is dated `mild_fast = 5`). -/
theorem c10_patient_zero_witness :
    ((initState 500 INFLUENZA_PARAMS).mild INFLUENZA_PARAMS.mild_fast = [0] ∧
      (∀ t, t ≠ INFLUENZA_PARAMS.mild_fast → (initState 500 INFLUENZA_PARAMS).mild t = []) ∧
      (∀ t, (initState 500 INFLUENZA_PARAMS).severe_recovery t = [] ∧
        (initState 500 INFLUENZA_PARAMS).severe_death t = [])) ∧
    (∀ (c : Fin 3) (t : ℕ), 0 ∈ bucketOf c10S c t → c = 0 ∧ t = INFLUENZA_PARAMS.mild_fast) ∧
    (c10Step.2.day = INFLUENZA_PARAMS.mild_fast → 0 ∈ c10Step.2.newlyRecovered) ∧
    0 ∉ c10Step.2.newlyDead :=
  c10_patient_zero influenza_sane canonicalOracle_wf
    (iterG_reachable (Reachable.init (by decide) (by decide))
      (show iterG INFLUENZA_PARAMS canonicalOracle 4 (initState 500 INFLUENZA_PARAMS) =
          .ok (c10S, resTrace (iterG INFLUENZA_PARAMS canonicalOracle 4
            (initState 500 INFLUENZA_PARAMS))) from rfl))
    (show spread_virus INFLUENZA_PARAMS canonicalOracle c10S =
        .ok (c10Step.1, c10Step.2) from rfl)

end VirusSim
